import Mathlib

/-
Verification of the balance-consistent transaction ledger of the luto
repository.  The data model and all operations below are shallow embeddings
of the JavaScript source: the Mongoose models (Transaction, User, GameRoom,
WithdrawalRequest) become Lean structures, and each controller / model
method becomes a pure function on an explicit store state.  Money amounts
are Int (JS numbers; all amounts in the code are integers), identifiers are
Nat for users and String for room codes, and ledger entries are referenced
by their position in the append-only entries list.
-/

namespace Luto

/-- Transaction `type` enum of the Transaction schema. -/
inductive TxType
  | deposit
  | withdrawal
  | game_win
  | game_loss
  | refund
  deriving DecidableEq

/-- Transaction `status` enum of the Transaction schema (default completed). -/
inductive TxStatus
  | pending
  | completed
  | failed
  | cancelled
  deriving DecidableEq

/-- A ledger entry (Transaction document).  Timestamps, transactionId and
free-form metadata carry no invariant-bearing logic and are omitted. -/
structure Entry where
  userId : Nat
  type : TxType
  amount : Int
  description : String
  status : TxStatus
  gameRoomId : Option String
  upiId : Option String
  balanceBefore : Int
  balanceAfter : Int
  deriving DecidableEq

/-- A User document: identity plus wallet balance (schema default 0). -/
structure User where
  id : Nat
  name : String
  balance : Int
  deriving DecidableEq

/-- GameRoom `status` enum. -/
inductive RoomStatus
  | waiting
  | playing
  | completed
  | cancelled
  deriving DecidableEq

/-- A player subdocument of a GameRoom (joinedAt omitted). -/
structure Player where
  userId : Nat
  name : String
  deriving DecidableEq

/-- A GameRoom document.  startedAt / completedAt are modelled as stamped-or-not
flags since only their presence matters. -/
structure GameRoom where
  roomId : String
  gameType : String
  amount : Int
  maxPlayers : Nat
  players : List Player
  status : RoomStatus
  winner : Option Nat
  createdBy : Nat
  startedAt : Bool
  completedAt : Bool
  totalPrizePool : Int
  platformFee : Int
  winnerAmount : Int
  deriving DecidableEq

/-- WithdrawalRequest `status` enum. -/
inductive WStatus
  | pending
  | approved
  | rejected
  | cancelled
  deriving DecidableEq

/-- A WithdrawalRequest document. `transactionId` is the index of the ledger
entry that debited the balance at submission time. -/
structure WithdrawalRequest where
  userId : Nat
  transactionId : Nat
  amount : Int
  upiId : String
  status : WStatus
  deriving DecidableEq

/-- The durable store: three logical collections (users, ledger entries,
rooms) plus withdrawal requests.  `entries` is append-only and kept in
creation order. -/
structure St where
  users : List User
  entries : List Entry
  rooms : List GameRoom
  requests : List WithdrawalRequest
  deriving DecidableEq

/-- User.findById. -/
def findUser (s : St) (uid : Nat) : Option User :=
  s.users.find? (fun u => u.id == uid)

/-- GameRoom.findOne on roomId. -/
def findRoom (s : St) (roomId : String) : Option GameRoom :=
  s.rooms.find? (fun r => r.roomId == roomId)

/-- User.findByIdAndUpdate with a new balance. -/
def setUserBalance (users : List User) (uid : Nat) (b : Int) : List User :=
  users.map (fun u => if u.id == uid then { u with balance := b } else u)

/-- Character class of the UPI regex before the at sign. -/
def isUpiLocalChar (c : Char) : Bool :=
  c.isAlphanum || c == '.' || c == '_' || c == '-'

/-- Character class of the UPI regex after the at sign. -/
def isUpiHandleChar (c : Char) : Bool :=
  c.isAlphanum || c == '.' || c == '-'

/-- The UPI-ID regex test used throughout the source: one or more characters
of the local class, a single at sign, one or more of the handle class. -/
def validUpi (str : String) : Bool :=
  match str.toList.splitOn '@' with
  | [a, b] => !a.isEmpty && !b.isEmpty && a.all isUpiLocalChar && b.all isUpiHandleChar
  | _ => false

/-- JS falsiness of the upiId value: undefined or the empty string. -/
def falsyUpi : Option String → Bool
  | none => true
  | some str => str.isEmpty

/-- Body of the custom upiId validator function of the Transaction schema:
a withdrawal-type document with a falsy upiId is rejected; a truthy upiId
must match the UPI regex; anything else passes. -/
def upiValidator (type : TxType) (v : Option String) : Bool :=
  if type == TxType.withdrawal && falsyUpi v then false
  else if !falsyUpi v then validUpi ((v.getD ""))
  else true

/-- Mongoose path-validation semantics for the upiId path: custom validators
are only invoked when the path value is defined; an undefined path skips
them (only the required validator would run, and upiId is not required). -/
def upiPathValid (type : TxType) (v : Option String) : Bool :=
  match v with
  | none => true
  | some str => upiValidator type (some str)

/-- Document validation of the Transaction schema as Mongoose applies it on
create / insertMany: amount has min 1, description is required (non-empty
after trim), and the upiId path validator runs when the path is defined. -/
def validEntry (e : Entry) : Bool :=
  decide (1 ≤ e.amount) && decide (e.description ≠ "") && upiPathValid e.type e.upiId

/-- Typed errors surfaced by the operations. -/
inductive Err
  | userNotFound
  | insufficientBalance
  | validationFailed
  | roomNotFound
  | alreadyJoined
  | notWaiting
  | roomFull
  | amountRequired
  | amountOutOfBounds
  | invalidRoomCode
  | duplicateRoomCode
  | roomIdGenFailed
  | playersOutOfBounds
  | invalidUpi
  | belowMinWithdrawal
  | aboveMaxWithdrawal
  | pendingRequestExists
  | requestNotFound
  | notPending
  | reasonRequired
  | notCompleted
  | notAPlayer
  | noPreviousWinner
  | sameWinner
  | gameNotInProgress
  | roomAlreadyCancelled
  | roomCompleted
  | insufficientBalanceForReversal
  | roomStartError
  | roomJoinError
  | roomCompleteError
  | roomSaveFailed
  deriving DecidableEq

/-- Additional data passed to createWithBalanceUpdate by its callers.  The
schema default for status is completed; callers may override it and may
supply a upiId and a gameRoomId back-reference. -/
structure Extra where
  status : TxStatus := TxStatus.completed
  gameRoomId : Option String := none
  upiId : Option String := none
  deriving DecidableEq

/-- Construction of the Transaction document inside createWithBalanceUpdate:
the explicit fields followed by the spread of additionalData. -/
def mkEntry (userId : Nat) (type : TxType) (amount : Int) (description : String)
    (extra : Extra) (balanceBefore balanceAfter : Int) : Entry :=
  { userId := userId, type := type, amount := amount, description := description,
    status := extra.status, gameRoomId := extra.gameRoomId, upiId := extra.upiId,
    balanceBefore := balanceBefore, balanceAfter := balanceAfter }

/-- Commit step of the mutator session: persist the new balance onto the
user and append the validated ledger entry; abort (no write at all) when
schema validation rejects the entry. -/
def commitMutation (s : St) (uid : Nat) (balanceAfter : Int) (e : Entry) :
    Except Err (St × Entry) :=
  if validEntry e then
    Except.ok ({ s with users := setUserBalance s.users uid balanceAfter,
                        entries := s.entries ++ [e] }, e)
  else Except.error Err.validationFailed

/-- Transaction.createWithBalanceUpdate, the Balance Mutator: load the user,
compute the new balance by the sign convention of the type, abort with
insufficientBalance when a debit would drive it negative, then persist the
balance update together with the new ledger entry as one atomic unit. -/
def createWithBalanceUpdate (s : St) (userId : Nat) (type : TxType) (amount : Int)
    (description : String) (extra : Extra) : Except Err (St × Entry) :=
  match findUser s userId with
  | none => Except.error Err.userNotFound
  | some user =>
    let balanceBefore := user.balance
    if type == TxType.deposit || type == TxType.game_win || type == TxType.refund then
      commitMutation s userId (balanceBefore + amount)
        (mkEntry userId type amount description extra balanceBefore (balanceBefore + amount))
    else
      let balanceAfter := balanceBefore - amount
      if balanceAfter < 0 then Except.error Err.insufficientBalance
      else commitMutation s userId balanceAfter
        (mkEntry userId type amount description extra balanceBefore balanceAfter)

/-- Signed effect of a ledger entry on the balance: credits add, debits
subtract. -/
def signedDelta (type : TxType) (amount : Int) : Int :=
  match type with
  | TxType.deposit => amount
  | TxType.game_win => amount
  | TxType.refund => amount
  | TxType.withdrawal => -amount
  | TxType.game_loss => -amount

/-- Debit types of the sign convention. -/
def isDebit (type : TxType) : Bool :=
  type == TxType.withdrawal || type == TxType.game_loss

/-- GameRoom.hasPlayer: whether a user is among the room players. -/
def GameRoom.hasPlayer (r : GameRoom) (uid : Nat) : Bool :=
  r.players.any (fun p => p.userId == uid)

/-- GameRoom virtual isFull: player count has reached maxPlayers. -/
def GameRoom.isFull (r : GameRoom) : Bool :=
  r.players.length ≥ r.maxPlayers

/-- GameRoom.addPlayer: guarded append of a player. -/
def GameRoom.addPlayer (r : GameRoom) (uid : Nat) (userName : String) :
    Except Err GameRoom :=
  if r.hasPlayer uid then Except.error Err.alreadyJoined
  else if r.isFull then Except.error Err.roomFull
  else if r.status != RoomStatus.waiting then Except.error Err.notWaiting
  else Except.ok { r with players := r.players ++ [{ userId := uid, name := userName }] }

/-- GameRoom.startGame: the waiting-to-playing transition.  Freezes the prize
pool (entry amount times player count), the platform fee
(Math.floor of pool times feePercent over 100) and the winner amount
(pool minus fee), and stamps startedAt. -/
def GameRoom.startGame (platformFeePercent : Int) (r : GameRoom) :
    Except Err GameRoom :=
  if r.status != RoomStatus.waiting then Except.error Err.roomStartError
  else if !r.isFull then Except.error Err.roomStartError
  else
    let totalAmount := r.amount * (r.players.length : Int)
    let fee := Int.fdiv (totalAmount * platformFeePercent) 100
    Except.ok { r with status := RoomStatus.playing, startedAt := true,
                       platformFee := fee, totalPrizePool := totalAmount,
                       winnerAmount := totalAmount - fee }

/-- GameRoom.completeGame: the playing-to-completed transition, stamping the
winner and completedAt. -/
def GameRoom.completeGame (r : GameRoom) (winnerId : Nat) : Except Err GameRoom :=
  if r.status != RoomStatus.playing then Except.error Err.roomCompleteError
  else if !r.hasPlayer winnerId then Except.error Err.roomCompleteError
  else Except.ok { r with status := RoomStatus.completed, winner := some winnerId,
                          completedAt := true }

/-- Room-code format regex of the source: two uppercase letters followed by
six digits. -/
def roomCodeFormat (code : String) : Bool :=
  match code.toList with
  | [a, b, c, d, e, f, g, h] =>
    a.isUpper && b.isUpper && c.isDigit && d.isDigit && e.isDigit && f.isDigit &&
      g.isDigit && h.isDigit
  | _ => false

/-- The gameType enum of the GameRoom schema. -/
def validGameType (g : String) : Bool :=
  g == "Ludo" || g == "Snakes & Ladders" || g == "Carrom"

/-- Document validation the GameRoom schema applies when a new room document
is saved: roomId format, amount bounds, maxPlayers bounds and the gameType
enum; the unique index on roomId additionally rejects a duplicate code. -/
def validRoomDoc (s : St) (r : GameRoom) : Bool :=
  roomCodeFormat r.roomId && validGameType r.gameType &&
    decide (10 ≤ r.amount) && decide (r.amount ≤ 10000) &&
    decide (2 ≤ r.maxPlayers) && decide (r.maxPlayers ≤ 4) &&
    !(findRoom s r.roomId).isSome

/-- Persisting an updated room document: every stored room with the same
roomId is replaced. -/
def saveRoom (s : St) (r : GameRoom) : St :=
  { s with rooms := s.rooms.map (fun x => if x.roomId == r.roomId then r else x) }

/-- The room-id generation loop of createRoom, fed by the stream of random
candidates: up to ten attempts, exiting early on a fresh code; reaching ten
attempts surfaces a generation failure even when the last candidate was
fresh. -/
def pickRoomId (s : St) : List String → Nat → Option String
  | [], _ => none
  | g :: rest, attempts =>
    let attempts := attempts + 1
    if (findRoom s g).isSome && attempts < 10 then pickRoomId s rest attempts
    else if attempts ≥ 10 then none
    else some g

/-- createRoom (room controller).  Validates amount bounds, an optionally
provided room code (format and current uniqueness) and player-count bounds,
checks the creator's balance, then debits the entry fee through the Balance
Mutator and saves the new room.  The Mutator opens and commits its own
storage session, so its debit is already durable when the room document is
saved inside the controller's session: a failing room save aborts only the
room insert and the returned state keeps the committed debit.  The second
component of the result is the durable state the call leaves behind. -/
def createRoomRest (s : St) (userId : Nat) (gameType : String) (amount : Int)
    (maxPlayers : Nat) (roomIdPick : Option String) : Except Err Unit × St :=
  if maxPlayers < 2 || maxPlayers > 4 then (Except.error Err.playersOutOfBounds, s)
  else
    match findUser s userId with
    | none => (Except.error Err.userNotFound, s)
    | some user =>
      if user.balance < amount then (Except.error Err.insufficientBalance, s)
      else
        match roomIdPick with
        | none => (Except.error Err.roomIdGenFailed, s)
        | some roomId =>
          match createWithBalanceUpdate s userId TxType.game_loss amount
              ("Game Entry - Room " ++ roomId) { } with
          | Except.error e => (Except.error e, s)
          | Except.ok (s1, _) =>
            if validRoomDoc s1
                { roomId := roomId, gameType := gameType, amount := amount,
                  maxPlayers := maxPlayers,
                  players := [{ userId := userId, name := user.name }],
                  status := RoomStatus.waiting, winner := none,
                  createdBy := userId, startedAt := false, completedAt := false,
                  totalPrizePool := 0, platformFee := 0, winnerAmount := 0 } then
              (Except.ok (), { s1 with rooms := s1.rooms ++
                [{ roomId := roomId, gameType := gameType, amount := amount,
                   maxPlayers := maxPlayers,
                   players := [{ userId := userId, name := user.name }],
                   status := RoomStatus.waiting, winner := none,
                   createdBy := userId, startedAt := false, completedAt := false,
                   totalPrizePool := 0, platformFee := 0, winnerAmount := 0 }] })
            else (Except.error Err.roomSaveFailed, s1)

def createRoom (s : St) (userId : Nat) (gameType : String) (amount : Int)
    (maxPlayers : Nat) (roomCode : Option String) (gens : List String) :
    Except Err Unit × St :=
  if amount ≤ 0 then (Except.error Err.amountRequired, s)
  else if amount < 10 || amount > 10000 then (Except.error Err.amountOutOfBounds, s)
  else
    match roomCode with
    | some code =>
      if !roomCodeFormat code then (Except.error Err.invalidRoomCode, s)
      else if (findRoom s code).isSome then (Except.error Err.duplicateRoomCode, s)
      else createRoomRest s userId gameType amount maxPlayers (some code)
    | none => createRoomRest s userId gameType amount maxPlayers (pickRoomId s gens 0)

/-- joinRoom (room controller).  Re-validates room state, membership, fullness
and balance, debits the entry fee through the Mutator, appends the player
and, when the room becomes full, runs startGame before saving the room.
As in createRoom, the Mutator commits its own session, so error exits after
the debit keep the debit in the returned state. -/
def joinRoom (platformFeePercent : Int) (s : St) (roomId : String) (userId : Nat) :
    Except Err Unit × St :=
  match findRoom s roomId with
  | none => (Except.error Err.roomNotFound, s)
  | some room =>
    if room.hasPlayer userId then (Except.error Err.alreadyJoined, s)
    else if room.status != RoomStatus.waiting then (Except.error Err.notWaiting, s)
    else if room.isFull then (Except.error Err.roomFull, s)
    else
      match findUser s userId with
      | none => (Except.error Err.userNotFound, s)
      | some user =>
        if user.balance < room.amount then (Except.error Err.insufficientBalance, s)
        else
          match createWithBalanceUpdate s userId TxType.game_loss room.amount
              ("Game Entry - Room " ++ room.roomId)
              { gameRoomId := some room.roomId } with
          | Except.error e => (Except.error e, s)
          | Except.ok (s1, _) =>
            match room.addPlayer userId user.name with
            | Except.error e => (Except.error e, s1)
            | Except.ok room1 =>
              match (if room1.isFull then GameRoom.startGame platformFeePercent room1
                     else Except.ok room1) with
              | Except.error e => (Except.error e, s1)
              | Except.ok room2 => (Except.ok (), saveRoom s1 room2)

/-- declareWinner (room controller).  Validates that the caller and the
declared winner are players and the room is playing, completes the game and
saves the room durably (outside any session), then credits the frozen
winnerAmount through the Mutator.  A failing credit leaves the room already
completed in the returned state. -/
def declareWinner (s : St) (roomId : String) (userId winnerId : Nat) :
    Except Err Unit × St :=
  match findRoom s roomId with
  | none => (Except.error Err.roomNotFound, s)
  | some room =>
    if !room.hasPlayer userId then (Except.error Err.notAPlayer, s)
    else if room.status != RoomStatus.playing then (Except.error Err.gameNotInProgress, s)
    else if !room.hasPlayer winnerId then (Except.error Err.notAPlayer, s)
    else
      match room.completeGame winnerId with
      | Except.error e => (Except.error e, s)
      | Except.ok room1 =>
        let s1 := saveRoom s room1
        match createWithBalanceUpdate s1 winnerId TxType.game_win room.winnerAmount
            ("Game Won - Room " ++ room.roomId)
            { gameRoomId := some room.roomId } with
        | Except.error e => (Except.error e, s1)
        | Except.ok (s2, _) => (Except.ok (), s2)

/-- Refund loop of the admin cancelRoom: one Mutator call per current player,
each committing its own session, so a failure partway keeps the refunds
already committed. -/
def refundPlayers (roomRef : String) (amt : Int) (desc : String) :
    St → List Player → Except Err Unit × St
  | s, [] => (Except.ok (), s)
  | s, p :: rest =>
    match createWithBalanceUpdate s p.userId TxType.refund amt desc
        { gameRoomId := some roomRef } with
    | Except.error e => (Except.error e, s)
    | Except.ok (s1, _) => refundPlayers roomRef amt desc s1 rest

/-- cancelRoom (admin controller, session variant): rejects rooms already
cancelled or completed, refunds every current player the entry amount and
saves the room as cancelled. -/
def cancelRoom (s : St) (roomId : String) (reason : String) :
    Except Err Unit × St :=
  match findRoom s roomId with
  | none => (Except.error Err.roomNotFound, s)
  | some room =>
    if room.status == RoomStatus.cancelled then (Except.error Err.roomAlreadyCancelled, s)
    else if room.status == RoomStatus.completed then (Except.error Err.roomCompleted, s)
    else
      match refundPlayers room.roomId room.amount
          ("Room cancelled by admin - " ++ reason) s room.players with
      | (Except.error e, s1) => (Except.error e, s1)
      | (Except.ok _, s1) =>
        (Except.ok (), saveRoom s1 { room with status := RoomStatus.cancelled })

/-- Transaction.findByIdAndUpdate restricted to the status transitions the
withdrawal and correction workflows perform; a missing id is a no-op. -/
def setEntryStatus (s : St) (i : Nat) (st : TxStatus) : St :=
  match s.entries[i]? with
  | none => s
  | some e => { s with entries := s.entries.set i { e with status := st } }

/-- Count of pending WithdrawalRequest documents of one user. -/
def countPending (s : St) (uid : Nat) : Nat :=
  (s.requests.filter
    (fun r => r.userId == uid && r.status == WStatus.pending)).length

/-- withdraw (wallet controller): validates presence, the configured min/max
bounds and the UPI format, checks balance sufficiency and the
single-pending-request rule, debits the amount immediately through the
Mutator with a pending-status ledger entry, then creates the
WithdrawalRequest referencing that entry. -/
def withdraw (minAmount maxAmount : Int) (s : St) (userId : Nat) (amount : Int)
    (upiId : String) : Except Err St :=
  if amount == 0 || upiId.isEmpty then Except.error Err.amountRequired
  else if amount < minAmount then Except.error Err.belowMinWithdrawal
  else if amount > maxAmount then Except.error Err.aboveMaxWithdrawal
  else if !validUpi upiId then Except.error Err.invalidUpi
  else
    match findUser s userId with
    | none => Except.error Err.userNotFound
    | some user =>
      if user.balance < amount then Except.error Err.insufficientBalance
      else if s.requests.any
          (fun r => r.userId == userId && r.status == WStatus.pending) then
        Except.error Err.pendingRequestExists
      else
        match createWithBalanceUpdate s userId TxType.withdrawal amount
            ("Withdrawal request to " ++ upiId)
            { status := TxStatus.pending, upiId := some upiId } with
        | Except.error e => Except.error e
        | Except.ok (s1, _) =>
          Except.ok { s1 with requests := s1.requests ++
            [{ userId := userId, transactionId := s.entries.length, amount := amount,
               upiId := upiId, status := WStatus.pending }] }

/-- WithdrawalRequest.approve: only legal from pending; marks the linked
ledger entry completed and the request approved; no balance movement. -/
def approveWithdrawalRequest (s : St) (requestIdx : Nat) : Except Err St :=
  match s.requests[requestIdx]? with
  | none => Except.error Err.requestNotFound
  | some wr =>
    if wr.status != WStatus.pending then Except.error Err.notPending
    else
      let s1 := setEntryStatus s wr.transactionId TxStatus.completed
      Except.ok { s1 with requests := s1.requests.set requestIdx
                            ({ wr with status := WStatus.approved }) }

/-- rejectWithdrawalRequest (admin controller plus WithdrawalRequest.reject):
requires a non-empty reason and a pending request; inside one session marks
the linked ledger entry failed, issues a refund credit of the original
amount through the Mutator and transitions the request to rejected. -/
def rejectWithdrawalRequest (s : St) (requestIdx : Nat) (reason : String) :
    Except Err St :=
  if reason.isEmpty then Except.error Err.reasonRequired
  else
    match s.requests[requestIdx]? with
    | none => Except.error Err.requestNotFound
    | some wr =>
      if wr.status != WStatus.pending then Except.error Err.notPending
      else
        let s1 := setEntryStatus s wr.transactionId TxStatus.failed
        match createWithBalanceUpdate s1 wr.userId TxType.refund wr.amount
            ("Withdrawal refund - " ++ reason) { } with
        | Except.error e => Except.error e
        | Except.ok (s2, _) =>
          Except.ok { s2 with requests := s2.requests.set requestIdx
                                ({ wr with status := WStatus.rejected }) }

/-- cancelWithdrawal (wallet controller plus WithdrawalRequest.cancel): the
user-initiated variant of reject; requires ownership and a pending request,
marks the linked entry cancelled, refunds the amount and transitions the
request to cancelled. -/
def cancelWithdrawal (s : St) (userId : Nat) (requestIdx : Nat) : Except Err St :=
  match s.requests[requestIdx]? with
  | none => Except.error Err.requestNotFound
  | some wr =>
    if wr.userId != userId then Except.error Err.requestNotFound
    else if wr.status != WStatus.pending then Except.error Err.notPending
    else
      let s1 := setEntryStatus s wr.transactionId TxStatus.cancelled
      match createWithBalanceUpdate s1 wr.userId TxType.refund wr.amount
          "Withdrawal cancelled by user" { } with
      | Except.error e => Except.error e
      | Except.ok (s2, _) =>
        Except.ok { s2 with requests := s2.requests.set requestIdx
                              ({ wr with status := WStatus.cancelled }) }

/-- addMoney (wallet controller): amount validation, fake payment gateway
(always verified), then a deposit through the Mutator. -/
def addMoney (s : St) (userId : Nat) (amount : Int) : Except Err St :=
  if amount ≤ 0 then Except.error Err.amountRequired
  else if amount > 100000 then Except.error Err.amountOutOfBounds
  else
    match createWithBalanceUpdate s userId TxType.deposit amount
        "Money Added to Wallet" { } with
    | Except.error e => Except.error e
    | Except.ok (s1, _) => Except.ok s1

/-- Registration of a new user: the User schema defaults the balance to 0. -/
def registerUser (s : St) (uid : Nat) (userName : String) : St :=
  match findUser s uid with
  | some _ => s
  | none => { s with users := s.users ++ [{ id := uid, name := userName, balance := 0 }] }

/-- The reversal ledger entry the winner correction builds for the old
winner: type withdrawal, the room's frozen winnerAmount, completed status,
and no upiId field at all. -/
def reversalEntry (room : GameRoom) (oldWinnerId : Nat) (oldBalance : Int) : Entry :=
  { userId := oldWinnerId, type := TxType.withdrawal, amount := room.winnerAmount,
    description := "Admin Correction - Reversed incorrect win for Room " ++ room.roomId,
    status := TxStatus.completed, gameRoomId := some room.roomId, upiId := none,
    balanceBefore := oldBalance, balanceAfter := oldBalance - room.winnerAmount }

/-- The correction ledger entry the winner correction builds for the new
winner: type game_win, the frozen winnerAmount, completed status, no upiId. -/
def correctionEntry (room : GameRoom) (newWinnerId : Nat) (newBalance : Int) : Entry :=
  { userId := newWinnerId, type := TxType.game_win, amount := room.winnerAmount,
    description := "Admin Correction - Correct winner declared for Room " ++ room.roomId,
    status := TxStatus.completed, gameRoomId := some room.roomId, upiId := none,
    balanceBefore := newBalance, balanceAfter := newBalance + room.winnerAmount }

/-- declareCorrectWinner (admin controller): for a completed room with a
recorded winner different from the requested one, inside a single storage
transaction re-reads both users, requires the old winner's balance to cover
the frozen winnerAmount, debits the old winner, credits the new winner,
updates the room winner and inserts the two correction entries (insertMany
validates them against the Transaction schema).  Any failure aborts the
transaction leaving the store unchanged. -/
def declareCorrectWinner (s : St) (roomId : String) (winnerId : Nat)
    (reason : String) : Except Err St :=
  match findRoom s roomId with
  | none => Except.error Err.roomNotFound
  | some room =>
    if room.status != RoomStatus.completed then Except.error Err.notCompleted
    else if !room.hasPlayer winnerId then Except.error Err.notAPlayer
    else
      match room.winner with
      | none => Except.error Err.noPreviousWinner
      | some oldWinnerId =>
        if oldWinnerId == winnerId then Except.error Err.sameWinner
        else
          match findUser s oldWinnerId with
          | none => Except.error Err.userNotFound
          | some oldWinner =>
            match findUser s winnerId with
            | none => Except.error Err.userNotFound
            | some newWinner =>
              if oldWinner.balance < room.winnerAmount then
                Except.error Err.insufficientBalanceForReversal
              else
                if validEntry (reversalEntry room oldWinnerId oldWinner.balance) &&
                    validEntry (correctionEntry room winnerId newWinner.balance) then
                  Except.ok
                    { users :=
                        setUserBalance
                          (setUserBalance s.users oldWinnerId
                            (oldWinner.balance - room.winnerAmount))
                          winnerId (newWinner.balance + room.winnerAmount),
                      entries := s.entries ++
                        [reversalEntry room oldWinnerId oldWinner.balance,
                         correctionEntry room winnerId newWinner.balance],
                      rooms := (saveRoom s
                        { room with winner := some winnerId }).rooms,
                      requests := s.requests }
                else Except.error Err.validationFailed

/-- Signed effect of one ledger entry. -/
def entryDelta (e : Entry) : Int :=
  signedDelta e.type e.amount

/-- Replay of a user's ledger: fold the signed amounts of all of the user's
entries in creation order starting from 0. -/
def ledgerSum (entries : List Entry) (uid : Nat) : Int :=
  ((entries.filter (fun e => e.userId == uid)).map entryDelta).sum

/-- Replay restricted to entries with status completed, as the spec's
replay-consistency property words it. -/
def ledgerSumCompleted (entries : List Entry) (uid : Nat) : Int :=
  ((entries.filter
      (fun e => e.userId == uid && e.status == TxStatus.completed)).map
    entryDelta).sum

/-- Live balance of a user id, 0 when the user does not exist. -/
def balanceOf (s : St) (uid : Nat) : Int :=
  ((findUser s uid).map (fun u => u.balance)).getD 0

/-- Every operation of the system, with its caller-supplied arguments (the
platform fee percentage and the random room-code stream are inputs of the
environment). -/
inductive Op
  | register (uid : Nat) (userName : String)
  | addMoney (uid : Nat) (amount : Int)
  | withdraw (uid : Nat) (amount : Int) (upiId : String)
  | approveWithdrawal (requestIdx : Nat)
  | rejectWithdrawal (requestIdx : Nat) (reason : String)
  | cancelWithdrawal (uid : Nat) (requestIdx : Nat)
  | createRoom (uid : Nat) (gameType : String) (amount : Int) (maxPlayers : Nat)
      (roomCode : Option String) (gens : List String)
  | joinRoom (feePercent : Int) (roomId : String) (uid : Nat)
  | declareWinner (roomId : String) (uid : Nat) (winnerId : Nat)
  | cancelRoomAdmin (roomId : String) (reason : String)
  | correctWinner (roomId : String) (winnerId : Nat) (reason : String)

/-- The durable state each operation leaves behind: atomic operations leave
the store unchanged on failure, while the room operations return the state
their partial commits produced (withdrawal bounds use the env defaults 100
and 50000). -/
def step (s : St) : Op → St
  | Op.register uid n => registerUser s uid n
  | Op.addMoney uid a =>
    match addMoney s uid a with
    | Except.ok s1 => s1
    | Except.error _ => s
  | Op.withdraw uid a u =>
    match withdraw 100 50000 s uid a u with
    | Except.ok s1 => s1
    | Except.error _ => s
  | Op.approveWithdrawal i =>
    match approveWithdrawalRequest s i with
    | Except.ok s1 => s1
    | Except.error _ => s
  | Op.rejectWithdrawal i r =>
    match rejectWithdrawalRequest s i r with
    | Except.ok s1 => s1
    | Except.error _ => s
  | Op.cancelWithdrawal uid i =>
    match cancelWithdrawal s uid i with
    | Except.ok s1 => s1
    | Except.error _ => s
  | Op.createRoom uid g a m rc gens => (createRoom s uid g a m rc gens).2
  | Op.joinRoom fp rid uid => (joinRoom fp s rid uid).2
  | Op.declareWinner rid uid wid => (declareWinner s rid uid wid).2
  | Op.cancelRoomAdmin rid r => (cancelRoom s rid r).2
  | Op.correctWinner rid wid r =>
    match declareCorrectWinner s rid wid r with
    | Except.ok s1 => s1
    | Except.error _ => s

/-- Execution of a sequence of operations. -/
def run (s : St) (ops : List Op) : St :=
  ops.foldl step s

/-- One invocation of the Balance Mutator with its arguments. -/
structure MutCall where
  userId : Nat
  type : TxType
  amount : Int
  description : String
  extra : Extra

/-- Durable state after one Mutator call: a failing call aborts its session
and leaves the store unchanged. -/
def mutStep (s : St) (c : MutCall) : St :=
  match createWithBalanceUpdate s c.userId c.type c.amount c.description c.extra with
  | Except.ok (s1, _) => s1
  | Except.error _ => s

/-- Durable state after a sequence of Mutator calls. -/
def mutRun (s : St) (cs : List MutCall) : St :=
  cs.foldl mutStep s

/-- All stored balances are non-negative. -/
def NonNegBalances (s : St) : Prop :=
  ∀ u ∈ s.users, 0 ≤ u.balance

/-- Replaying every ledger entry of a user reproduces the live balance
(0 for absent users, matching the schema default and the absence of
entries for them). -/
def LedgerMatches (s : St) : Prop :=
  ∀ uid : Nat, ledgerSum s.entries uid = balanceOf s uid

/-- No user has more than one pending withdrawal request. -/
def PendingLimit (s : St) : Prop :=
  ∀ uid : Nat, countPending s uid ≤ 1

/-- Sample user with a balance of 500. -/
def aliceU : User :=
  { id := 1, name := "Alice", balance := 500 }

/-- Sample user with a balance of 300. -/
def bobU : User :=
  { id := 2, name := "Bob", balance := 300 }

/-- Sample store holding only Alice. -/
def wS0 : St :=
  { users := [aliceU], entries := [], rooms := [], requests := [] }

/-- Ledger entry produced by a deposit of 50 on the sample store. -/
def wC1entry : Entry :=
  mkEntry 1 TxType.deposit 50 "Money Added to Wallet" { } 500 550

/-- Store after the sample deposit. -/
def wC1state : St :=
  { wS0 with users := setUserBalance wS0.users 1 550, entries := [wC1entry] }

/-- Sample Mutator-call sequence: a deposit followed by a debit. -/
def wC2calls : List MutCall :=
  [ { userId := 1, type := TxType.deposit, amount := 100, description := "d",
      extra := { } },
    { userId := 1, type := TxType.game_loss, amount := 600, description := "g",
      extra := { } } ]

/-- Sample failing Mutator call: a debit of 600 against a balance of 500. -/
def wC2call : MutCall :=
  { userId := 1, type := TxType.withdrawal, amount := 600, description := "w",
    extra := { } }

/-- Sample waiting room: entry fee 100, two seats, Alice already inside. -/
def wRoom : GameRoom :=
  { roomId := "LK123456", gameType := "Ludo", amount := 100, maxPlayers := 2,
    players := [{ userId := 1, name := "Alice" }], status := RoomStatus.waiting,
    winner := none, createdBy := 1, startedAt := false, completedAt := false,
    totalPrizePool := 0, platformFee := 0, winnerAmount := 0 }

/-- Sample store for the join scenario: Alice (500), Bob (300), one room. -/
def wS5 : St :=
  { users := [aliceU, bobU], entries := [], rooms := [wRoom], requests := [] }

/-- Store after Bob joins the sample room (fee percentage 10). -/
def wS5res : St :=
  (joinRoom 10 wS5 "LK123456" 2).2

/-- The empty store. -/
def emptySt : St :=
  { users := [], entries := [], rooms := [], requests := [] }

/-- Sample operation trace: register, deposit 1000, submit a withdrawal of
300 (which leaves a pending withdrawal-type ledger entry). -/
def wC4ops : List Op :=
  [Op.register 1 "A", Op.addMoney 1 1000, Op.withdraw 1 300 "a@b"]

/-- Store reached by the sample trace. -/
def wC4res : St :=
  run emptySt wC4ops

/-- Sample store where Alice already has a pending withdrawal request. -/
def wS9 : St :=
  { users := [aliceU], entries := [], rooms := [],
    requests := [{ userId := 1, transactionId := 0, amount := 300,
                   upiId := "a@b", status := WStatus.pending }] }

/-- Store after Alice submits a withdrawal of 300 on the sample store. -/
def wS9res : St :=
  match withdraw 100 50000 wS0 1 300 "a@b" with
  | Except.ok s => s
  | Except.error _ => wS0

/-- Store after the admin rejects the withdrawal just submitted on the
sample store. -/
def wS8res : St :=
  match rejectWithdrawalRequest wS9res 0 "invalid upi" with
  | Except.ok s => s
  | Except.error _ => wS9res

/-- Sample completed room: prize 180 frozen, Alice recorded as winner. -/
def wRoomC6 : GameRoom :=
  { roomId := "LK654321", gameType := "Ludo", amount := 100, maxPlayers := 2,
    players := [{ userId := 1, name := "Alice" }, { userId := 2, name := "Bob" }],
    status := RoomStatus.completed, winner := some 1, createdBy := 1,
    startedAt := true, completedAt := true, totalPrizePool := 200,
    platformFee := 20, winnerAmount := 180 }

/-- Sample user: Alice holding the winnings (balance 580). -/
def aliceRich : User :=
  { id := 1, name := "Alice", balance := 580 }

/-- Sample store for the winner-correction scenario. -/
def wS6 : St :=
  { users := [aliceRich, bobU], entries := [], rooms := [wRoomC6],
    requests := [] }

/-- Store after the winner correction reassigns the sample room to Bob. -/
def wS6res : St :=
  match declareCorrectWinner wS6 "LK654321" 2 "fix" with
  | Except.ok s => s
  | Except.error _ => wS6

/-- Sample playing room with two players, both already debited 100. -/
def wRoomC7 : GameRoom :=
  { roomId := "LK777777", gameType := "Ludo", amount := 100, maxPlayers := 2,
    players := [{ userId := 1, name := "Alice" }, { userId := 2, name := "Bob" }],
    status := RoomStatus.playing, winner := none, createdBy := 1,
    startedAt := true, completedAt := false, totalPrizePool := 200,
    platformFee := 20, winnerAmount := 180 }

/-- Sample store for the cancellation scenario (post-entry balances). -/
def wS7 : St :=
  { users := [{ id := 1, name := "Alice", balance := 400 },
              { id := 2, name := "Bob", balance := 200 }],
    entries := [], rooms := [wRoomC7], requests := [] }

theorem find?_setUserBalance (users : List User) (uid : Nat) (b : Int) (uid2 : Nat) :
    (setUserBalance users uid b).find? (fun u => u.id == uid2) =
      if uid = uid2 then
        (users.find? (fun u => u.id == uid2)).map (fun u => { u with balance := b })
      else users.find? (fun u => u.id == uid2) := by
  unfold setUserBalance
  rw [List.find?_map]
  have hp : ((fun u : User => u.id == uid2) ∘
      (fun u : User => if u.id == uid then { u with balance := b } else u)) =
      (fun u : User => u.id == uid2) := by
    funext u
    by_cases h : u.id = uid <;> simp [h]
  rw [hp]
  cases hfind : users.find? (fun u => u.id == uid2) with
  | none => simp
  | some x =>
    have hx : x.id = uid2 := by
      have := List.find?_some hfind
      simpa using this
    by_cases h : uid = uid2
    · subst h
      simp [hx]
    · have hxu : ¬ x.id = uid := by
        rw [hx]
        exact fun hh => h hh.symm
      simp [hxu, h]

theorem ledgerSum_append (es es2 : List Entry) (uid : Nat) :
    ledgerSum (es ++ es2) uid = ledgerSum es uid + ledgerSum es2 uid := by
  simp [ledgerSum, List.filter_append]

theorem ledgerSum_cons (x : Entry) (es : List Entry) (uid : Nat) :
    ledgerSum (x :: es) uid =
      (if x.userId = uid then entryDelta x else 0) + ledgerSum es uid := by
  by_cases h : x.userId = uid <;> simp [ledgerSum, List.filter_cons, h]

theorem ledgerSum_single (e : Entry) (uid : Nat) :
    ledgerSum [e] uid = if e.userId = uid then entryDelta e else 0 := by
  have := ledgerSum_cons e [] uid
  simpa [ledgerSum] using this

theorem ledgerSum_set_status (es : List Entry) (i : Nat) (e : Entry) (st : TxStatus)
    (h : es[i]? = some e) (uid : Nat) :
    ledgerSum (es.set i { e with status := st }) uid = ledgerSum es uid := by
  induction es generalizing i with
  | nil => simp at h
  | cons x rest ih =>
    cases i with
    | zero =>
      simp only [List.getElem?_cons_zero, Option.some.injEq] at h
      subst h
      rw [List.set_cons_zero, ledgerSum_cons, ledgerSum_cons]
      rfl
    | succ n =>
      simp only [List.getElem?_cons_succ] at h
      rw [List.set_cons_succ, ledgerSum_cons, ledgerSum_cons, ih n h]

theorem setEntryStatus_parts (s : St) (i : Nat) (st : TxStatus) :
    (setEntryStatus s i st).users = s.users ∧
      (setEntryStatus s i st).rooms = s.rooms ∧
      (setEntryStatus s i st).requests = s.requests := by
  unfold setEntryStatus
  cases s.entries[i]? <;> exact ⟨rfl, rfl, rfl⟩

theorem ledgerSum_setEntryStatus (s : St) (i : Nat) (st : TxStatus) (uid : Nat) :
    ledgerSum (setEntryStatus s i st).entries uid = ledgerSum s.entries uid := by
  unfold setEntryStatus
  cases h : s.entries[i]? with
  | none => rfl
  | some e => simpa using ledgerSum_set_status s.entries i e st h uid

theorem createWithBalanceUpdate_ok_spec {s : St} {uid : Nat} {t : TxType} {amt : Int}
    {d : String} {ex : Extra} {s1 : St} {e : Entry}
    (h : createWithBalanceUpdate s uid t amt d ex = Except.ok (s1, e)) :
    ∃ u, findUser s uid = some u ∧
      e = mkEntry uid t amt d ex u.balance (u.balance + signedDelta t amt) ∧
      s1.users = setUserBalance s.users uid (u.balance + signedDelta t amt) ∧
      s1.entries = s.entries ++ [e] ∧
      s1.rooms = s.rooms ∧ s1.requests = s.requests ∧
      validEntry e = true ∧
      (isDebit t = true → 0 ≤ u.balance + signedDelta t amt) := by
  unfold createWithBalanceUpdate commitMutation at h
  split at h
  · exact absurd h (by simp)
  next u hfu =>
    refine ⟨u, hfu, ?_⟩
    cases t
    case deposit | game_win | refund =>
      split at h
      · simp only [] at h
        split at h
        · next hv =>
            simp only [Except.ok.injEq, Prod.mk.injEq] at h
            obtain ⟨hs1, he⟩ := h
            subst hs1
            subst he
            refine ⟨rfl, rfl, rfl, rfl, rfl, hv, ?_⟩
            intro hd
            exact absurd hd (by decide)
        · exact absurd h (by simp)
      · next hc => exact absurd hc (by decide)
    case withdrawal | game_loss =>
      split at h
      · next hc => exact absurd hc (by decide)
      · simp only [] at h
        split at h
        · exact absurd h (by simp)
        · next hlt =>
            split at h
            · next hv =>
                simp only [Except.ok.injEq, Prod.mk.injEq] at h
                obtain ⟨hs1, he⟩ := h
                subst hs1
                subst he
                refine ⟨?_, ?_, rfl, rfl, rfl, hv, ?_⟩
                · simp [mkEntry, signedDelta, sub_eq_add_neg]
                · simp [signedDelta, sub_eq_add_neg]
                · intro _
                  simp only [signedDelta]
                  omega
            · exact absurd h (by simp)

theorem createWithBalanceUpdate_insufficient {s : St} {uid : Nat} {t : TxType}
    {amt : Int} {d : String} {ex : Extra} {u : User}
    (hu : findUser s uid = some u) (ht : isDebit t = true) (hlt : u.balance < amt) :
    createWithBalanceUpdate s uid t amt d ex = Except.error Err.insufficientBalance := by
  unfold createWithBalanceUpdate
  rw [hu]
  cases t
  case deposit | game_win | refund => simp [isDebit] at ht
  case withdrawal | game_loss =>
    simp only []
    have hneg : u.balance - amt < 0 := by omega
    simp [hneg]

theorem mutStep_nonneg {s : St} (hs : NonNegBalances s) (c : MutCall) :
    NonNegBalances (mutStep s c) := by
  unfold mutStep
  cases hok : createWithBalanceUpdate s c.userId c.type c.amount c.description c.extra with
  | error e => exact hs
  | ok p =>
    obtain ⟨s1, e⟩ := p
    obtain ⟨u, hfu, he, husers, -, -, -, hv, hdeb⟩ := createWithBalanceUpdate_ok_spec hok
    have hu0 : 0 ≤ u.balance := hs u (List.mem_of_find?_eq_some hfu)
    have hamt : 1 ≤ c.amount := by
      have hv2 := hv
      unfold validEntry at hv2
      rw [he] at hv2
      simp [mkEntry] at hv2
      exact hv2.1.1
    have hnew : 0 ≤ u.balance + signedDelta c.type c.amount := by
      cases htc : c.type <;> rw [htc] at hdeb <;>
        simp only [signedDelta, isDebit] at hdeb ⊢
      case deposit | game_win | refund => omega
      case withdrawal | game_loss => exact hdeb (by decide)
    intro x hx
    rw [husers] at hx
    unfold setUserBalance at hx
    rw [List.mem_map] at hx
    obtain ⟨y, hy, hxy⟩ := hx
    by_cases hid : y.id = c.userId
    · rw [if_pos (by simpa using hid)] at hxy
      rw [← hxy]
      exact hnew
    · rw [if_neg (by simpa using hid)] at hxy
      rw [← hxy]
      exact hs y hy

theorem mutRun_nonneg {s : St} (cs : List MutCall) (hs : NonNegBalances s) :
    NonNegBalances (mutRun s cs) := by
  induction cs generalizing s with
  | nil => exact hs
  | cons c rest ih => exact ih (mutStep_nonneg hs c)

theorem ledgerMatches_same {s1 s2 : St} (hu : s2.users = s1.users)
    (he : s2.entries = s1.entries) (h : LedgerMatches s1) : LedgerMatches s2 := by
  intro uid
  unfold balanceOf findUser
  rw [hu, he]
  exact h uid

theorem balanceOf_setUserBalance {s1 s : St} {uid : Nat} {b : Int} {u : User}
    (husers : s1.users = setUserBalance s.users uid b)
    (hfu : findUser s uid = some u) (uid2 : Nat) :
    balanceOf s1 uid2 = if uid = uid2 then b else balanceOf s uid2 := by
  unfold balanceOf findUser
  rw [husers, find?_setUserBalance]
  by_cases hx : uid = uid2
  · subst hx
    rw [if_pos rfl, if_pos rfl]
    unfold findUser at hfu
    rw [hfu]
    rfl
  · rw [if_neg hx, if_neg hx]

theorem mutOk_ledger {s : St} {uid : Nat} {t : TxType} {amt : Int} {d : String}
    {ex : Extra} {s1 : St} {e : Entry}
    (h : createWithBalanceUpdate s uid t amt d ex = Except.ok (s1, e))
    (hs : LedgerMatches s) : LedgerMatches s1 := by
  obtain ⟨u, hfu, he, husers, hentries, -, -, -, -⟩ := createWithBalanceUpdate_ok_spec h
  intro uid2
  rw [hentries, ledgerSum_append, ledgerSum_single,
    balanceOf_setUserBalance husers hfu uid2]
  have heid : e.userId = uid := by rw [he]; rfl
  have hed : entryDelta e = signedDelta t amt := by rw [he]; rfl
  have hbal : balanceOf s uid = u.balance := by
    unfold balanceOf
    rw [hfu]
    rfl
  by_cases hx : uid = uid2
  · subst hx
    rw [if_pos rfl, if_pos heid, hs uid, hbal, hed]
  · rw [if_neg hx, if_neg (fun hh => hx ((heid.symm.trans hh)))]
    rw [hs uid2, add_zero]

theorem mutStep_ledger {s : St} (hs : LedgerMatches s) (c : MutCall) :
    LedgerMatches (mutStep s c) := by
  unfold mutStep
  cases hok : createWithBalanceUpdate s c.userId c.type c.amount c.description c.extra with
  | error e => exact hs
  | ok p =>
    obtain ⟨s1, e⟩ := p
    exact mutOk_ledger hok hs

theorem registerUser_ledger {s : St} (hs : LedgerMatches s) (uid : Nat) (n : String) :
    LedgerMatches (registerUser s uid n) := by
  unfold registerUser
  cases hf : findUser s uid with
  | some u => exact hs
  | none =>
    intro uid2
    unfold balanceOf findUser
    simp only [List.find?_append]
    cases hf2 : s.users.find? (fun x => x.id == uid2) with
    | some x =>
      have := hs uid2
      unfold balanceOf findUser at this
      rw [hf2] at this
      simpa [Option.or] using this
    | none =>
      have := hs uid2
      unfold balanceOf findUser at this
      rw [hf2] at this
      by_cases hx : uid = uid2
      · subst hx
        simpa [Option.or, List.find?] using this
      · have hne : (uid == uid2) = false := by simpa using hx
        simpa [Option.or, List.find?, hne] using this

theorem setEntryStatus_ledger {s : St} (hs : LedgerMatches s) (i : Nat)
    (st : TxStatus) : LedgerMatches (setEntryStatus s i st) := by
  intro uid
  rw [ledgerSum_setEntryStatus]
  have hu := (setEntryStatus_parts s i st).1
  unfold balanceOf findUser
  rw [hu]
  exact hs uid

theorem withdraw_ok_spec {minA maxA : Int} {s : St} {uid : Nat} {amt : Int}
    {upi : String} {s1 : St}
    (h : withdraw minA maxA s uid amt upi = Except.ok s1) :
    ∃ s2 e, createWithBalanceUpdate s uid TxType.withdrawal amt
        ("Withdrawal request to " ++ upi)
        { status := TxStatus.pending, upiId := some upi } = Except.ok (s2, e) ∧
      s1 = { s2 with requests := s2.requests ++
        [{ userId := uid, transactionId := s.entries.length, amount := amt,
           upiId := upi, status := WStatus.pending }] } ∧
      s.requests.any (fun r => r.userId == uid && r.status == WStatus.pending) =
        false := by
  unfold withdraw at h
  split at h
  · exact absurd h (by simp)
  split at h
  · exact absurd h (by simp)
  split at h
  · exact absurd h (by simp)
  split at h
  · exact absurd h (by simp)
  split at h
  · exact absurd h (by simp)
  next u hfu =>
    split at h
    · exact absurd h (by simp)
    split at h
    · exact absurd h (by simp)
    next hnopending =>
      split at h
      · exact absurd h (by simp)
      next x2 s2 e hok =>
        refine ⟨s2, e, hok, ?_, ?_⟩
        · simpa using h.symm
        · simpa using hnopending

theorem approve_ok_spec {s : St} {i : Nat} {s1 : St}
    (h : approveWithdrawalRequest s i = Except.ok s1) :
    ∃ wr, s.requests[i]? = some wr ∧ wr.status = WStatus.pending ∧
      s1 = { setEntryStatus s wr.transactionId TxStatus.completed with
             requests := (setEntryStatus s wr.transactionId
                TxStatus.completed).requests.set i
               ({ wr with status := WStatus.approved }) } := by
  unfold approveWithdrawalRequest at h
  split at h
  · exact absurd h (by simp)
  next wr hwr =>
    split at h
    · exact absurd h (by simp)
    next hpend =>
      refine ⟨wr, hwr, by simpa using hpend, by simpa using h.symm⟩

theorem reject_ok_spec {s : St} {i : Nat} {reason : String} {s1 : St}
    (h : rejectWithdrawalRequest s i reason = Except.ok s1) :
    ∃ wr s2 e, s.requests[i]? = some wr ∧ wr.status = WStatus.pending ∧
      createWithBalanceUpdate (setEntryStatus s wr.transactionId TxStatus.failed)
          wr.userId TxType.refund wr.amount ("Withdrawal refund - " ++ reason)
          { } = Except.ok (s2, e) ∧
      s1 = { s2 with requests :=
        s2.requests.set i ({ wr with status := WStatus.rejected }) } := by
  unfold rejectWithdrawalRequest at h
  split at h
  · exact absurd h (by simp)
  split at h
  · exact absurd h (by simp)
  next wr hwr =>
    split at h
    · exact absurd h (by simp)
    next hpend =>
      simp only [] at h
      split at h
      · exact absurd h (by simp)
      next x2 s2 e hok =>
        exact ⟨wr, s2, e, hwr, by simpa using hpend, hok, by simpa using h.symm⟩

theorem cancelW_ok_spec {s : St} {uid : Nat} {i : Nat} {s1 : St}
    (h : cancelWithdrawal s uid i = Except.ok s1) :
    ∃ wr s2 e, s.requests[i]? = some wr ∧ wr.userId = uid ∧
      wr.status = WStatus.pending ∧
      createWithBalanceUpdate (setEntryStatus s wr.transactionId TxStatus.cancelled)
          wr.userId TxType.refund wr.amount "Withdrawal cancelled by user"
          { } = Except.ok (s2, e) ∧
      s1 = { s2 with requests :=
        s2.requests.set i ({ wr with status := WStatus.cancelled }) } := by
  unfold cancelWithdrawal at h
  split at h
  · exact absurd h (by simp)
  next wr hwr =>
    split at h
    · exact absurd h (by simp)
    next howner =>
      split at h
      · exact absurd h (by simp)
      next hpend =>
        simp only [] at h
        split at h
        · exact absurd h (by simp)
        next x2 s2 e hok =>
          refine ⟨wr, s2, e, hwr, by simpa using howner, by simpa using hpend,
            hok, by simpa using h.symm⟩

theorem addPlayer_ok {r : GameRoom} {uid : Nat} {n : String} {r1 : GameRoom}
    (h : r.addPlayer uid n = Except.ok r1) :
    r.hasPlayer uid = false ∧ r.isFull = false ∧ r.status = RoomStatus.waiting ∧
      r1 = { r with players := r.players ++ [{ userId := uid, name := n }] } := by
  unfold GameRoom.addPlayer at h
  split at h
  · exact absurd h (by simp)
  next h1 =>
    split at h
    · exact absurd h (by simp)
    next h2 =>
      split at h
      · exact absurd h (by simp)
      next h3 =>
        refine ⟨by simpa using h1, by simpa using h2, by simpa using h3, ?_⟩
        simpa using h.symm

theorem startGame_ok {fp : Int} {r r2 : GameRoom}
    (h : GameRoom.startGame fp r = Except.ok r2) :
    r.status = RoomStatus.waiting ∧ r.isFull = true ∧
      r2 = { r with
             status := RoomStatus.playing, startedAt := true,
             platformFee := Int.fdiv (r.amount * (r.players.length : Int) * fp) 100,
             totalPrizePool := r.amount * (r.players.length : Int),
             winnerAmount := r.amount * (r.players.length : Int) -
               Int.fdiv (r.amount * (r.players.length : Int) * fp) 100 } := by
  unfold GameRoom.startGame at h
  split at h
  · exact absurd h (by simp)
  next h1 =>
    split at h
    · exact absurd h (by simp)
    next h2 =>
      refine ⟨by simpa using h1, by simpa using h2, ?_⟩
      simpa using h.symm

theorem findRoom_saveRoom {s : St} {rid : String} {room r2 : GameRoom}
    (hfind : findRoom s rid = some room) (hid : r2.roomId = room.roomId) :
    findRoom (saveRoom s r2) rid = some r2 := by
  have hrid : room.roomId = rid := by
    have := List.find?_some hfind
    simpa using this
  unfold findRoom saveRoom at *
  simp only []
  rw [List.find?_map]
  have hp : ((fun x : GameRoom => x.roomId == rid) ∘
      (fun x : GameRoom => if x.roomId == r2.roomId then r2 else x)) =
      (fun x : GameRoom => x.roomId == rid) := by
    funext x
    by_cases hx : x.roomId = r2.roomId
    · simp [hx, hid, hrid]
    · simp [hx]
  rw [hp, hfind]
  have : room.roomId = r2.roomId := by rw [hid]
  simp [Option.map, this]

theorem saveRoom_parts (s : St) (r : GameRoom) :
    (saveRoom s r).users = s.users ∧ (saveRoom s r).entries = s.entries ∧
      (saveRoom s r).requests = s.requests :=
  ⟨rfl, rfl, rfl⟩

theorem joinRoom_ok_spec {fp : Int} {s : St} {rid : String} {uid : Nat}
    {sFin : St} (h : joinRoom fp s rid uid = (Except.ok (), sFin)) :
    ∃ room user s1 e room1 room2,
      findRoom s rid = some room ∧
      room.hasPlayer uid = false ∧ room.status = RoomStatus.waiting ∧
      room.isFull = false ∧ findUser s uid = some user ∧
      ¬ user.balance < room.amount ∧
      createWithBalanceUpdate s uid TxType.game_loss room.amount
          ("Game Entry - Room " ++ room.roomId)
          { gameRoomId := some room.roomId } = Except.ok (s1, e) ∧
      room.addPlayer uid user.name = Except.ok room1 ∧
      (if room1.isFull then GameRoom.startGame fp room1 else Except.ok room1) =
        Except.ok room2 ∧
      sFin = saveRoom s1 room2 := by
  unfold joinRoom at h
  split at h
  · exact absurd h (by simp)
  next room hroom =>
    split at h
    · exact absurd h (by simp)
    next h1 =>
      split at h
      · exact absurd h (by simp)
      next h2 =>
        split at h
        · exact absurd h (by simp)
        next h3 =>
          split at h
          · exact absurd h (by simp)
          next user huser =>
            split at h
            · exact absurd h (by simp)
            next h4 =>
              split at h
              · exact absurd h (by simp)
              next x1 s1 e hok =>
                split at h
                · exact absurd h (by simp)
                next x2 room1 hadd =>
                  split at h
                  · exact absurd h (by simp)
                  next x3 room2 hstart =>
                    refine ⟨room, user, s1, e, room1, room2, hroom,
                      by simpa using h1, by simpa using h2, by simpa using h3,
                      huser, h4, hok, hadd, hstart, ?_⟩
                    simpa using h.symm

/-- C1: every successful Balance Mutator invocation returns a ledger entry
whose balanceBefore is the user's balance read at the start of the
operation, whose balanceAfter is balanceBefore plus the amount for deposit,
game_win and refund and balanceBefore minus the amount for withdrawal and
game_loss, whose type and amount are the invocation's, whose persisted user
balance equals balanceAfter, and hence whose balanceAfter minus
balanceBefore is exactly the signed amount of its type. -/
theorem createWithBalanceUpdate_conservation (s : St) (uid : Nat) (t : TxType)
    (amt : Int) (d : String) (ex : Extra) (s1 : St) (e : Entry) (u : User)
    (hu : findUser s uid = some u)
    (h : createWithBalanceUpdate s uid t amt d ex = Except.ok (s1, e)) :
    e.balanceBefore = u.balance ∧
      ((t = TxType.deposit ∨ t = TxType.game_win ∨ t = TxType.refund) →
        e.balanceAfter = e.balanceBefore + amt) ∧
      ((t = TxType.withdrawal ∨ t = TxType.game_loss) →
        e.balanceAfter = e.balanceBefore - amt) ∧
      (findUser s1 uid).map (fun x => x.balance) = some e.balanceAfter ∧
      e.type = t ∧ e.amount = amt ∧
      e.balanceAfter - e.balanceBefore = signedDelta t amt := by
  obtain ⟨u2, hfu2, he, husers, hentries, -, -, -, -⟩ := createWithBalanceUpdate_ok_spec h
  rw [hu] at hfu2
  injection hfu2 with hu2
  subst hu2
  subst he
  refine ⟨rfl, ?_, ?_, ?_, rfl, rfl, ?_⟩
  · rintro (rfl | rfl | rfl) <;> simp [mkEntry, signedDelta]
  · rintro (rfl | rfl) <;> simp [mkEntry, signedDelta, sub_eq_add_neg]
  · have hu3 : s.users.find? (fun x => x.id == uid) = some u := hu
    unfold findUser
    rw [husers, find?_setUserBalance, if_pos rfl, hu3]
    simp [mkEntry]
  · simp [mkEntry]

/-- C1 witness: the deposit of 50 against the sample store. -/
theorem createWithBalanceUpdate_conservation_witness :
    wC1entry.balanceBefore = aliceU.balance ∧
      ((TxType.deposit = TxType.deposit ∨ TxType.deposit = TxType.game_win ∨
          TxType.deposit = TxType.refund) →
        wC1entry.balanceAfter = wC1entry.balanceBefore + 50) ∧
      ((TxType.deposit = TxType.withdrawal ∨ TxType.deposit = TxType.game_loss) →
        wC1entry.balanceAfter = wC1entry.balanceBefore - 50) ∧
      (findUser wC1state 1).map (fun x => x.balance) = some wC1entry.balanceAfter ∧
      wC1entry.type = TxType.deposit ∧ wC1entry.amount = 50 ∧
      wC1entry.balanceAfter - wC1entry.balanceBefore = signedDelta TxType.deposit 50 :=
  createWithBalanceUpdate_conservation wS0 1 TxType.deposit 50
    "Money Added to Wallet" { } wC1state wC1entry aliceU rfl rfl

/-- C2: a Mutator debit whose amount strictly exceeds the user's current
balance fails with the insufficient-balance error and leaves the store
unchanged (no ledger entry, balance untouched), and along every sequence of
Mutator calls from non-negative balances every balance stays
non-negative. -/
theorem balance_never_negative :
    (∀ (s : St) (uid : Nat) (t : TxType) (amt : Int) (d : String) (ex : Extra)
        (u : User), findUser s uid = some u → isDebit t = true →
        u.balance < amt →
        createWithBalanceUpdate s uid t amt d ex =
            Except.error Err.insufficientBalance ∧
          mutStep s
              { userId := uid, type := t, amount := amt, description := d,
                extra := ex } = s) ∧
    (∀ (s : St) (cs : List MutCall), NonNegBalances s →
      NonNegBalances (mutRun s cs)) := by
  constructor
  · intro s uid t amt d ex u hu ht hlt
    have herr : createWithBalanceUpdate s uid t amt d ex =
        Except.error Err.insufficientBalance :=
      createWithBalanceUpdate_insufficient hu ht hlt
    refine ⟨herr, ?_⟩
    unfold mutStep
    simp only []
    rw [herr]
  · intro s cs hs
    exact mutRun_nonneg cs hs

/-- C2 witness: on the sample store a withdrawal of 600 against a balance of
500 fails without a write, and the sample call sequence keeps all balances
non-negative. -/
theorem balance_never_negative_witness :
    (createWithBalanceUpdate wS0 1 TxType.withdrawal 600 "w" { } =
        Except.error Err.insufficientBalance ∧
      mutStep wS0 wC2call = wS0) ∧
    NonNegBalances (mutRun wS0 wC2calls) :=
  ⟨balance_never_negative.1 wS0 1 TxType.withdrawal 600 "w" { } aliceU rfl rfl
      (by decide),
    balance_never_negative.2 wS0 wC2calls (by
      intro u hu2
      simp only [wS0, List.mem_singleton] at hu2
      subst hu2
      decide)⟩

theorem append_ne_empty_of_length {a : String} (b : String) (ha : 0 < a.length) :
    (a ++ b) ≠ "" := by
  intro h
  have h2 := congrArg String.length h
  rw [String.length_append, String.length_empty] at h2
  omega

theorem correctWinner_ok_spec {s : St} {rid : String} {wid : Nat}
    {reason : String} {s1 : St}
    (h : declareCorrectWinner s rid wid reason = Except.ok s1) :
    ∃ room oldId oldW newW,
      findRoom s rid = some room ∧ room.status = RoomStatus.completed ∧
      room.hasPlayer wid = true ∧ room.winner = some oldId ∧
      (oldId == wid) = false ∧
      findUser s oldId = some oldW ∧ findUser s wid = some newW ∧
      ¬ oldW.balance < room.winnerAmount ∧
      s1 = { users :=
               setUserBalance
                 (setUserBalance s.users oldId
                   (oldW.balance - room.winnerAmount))
                 wid (newW.balance + room.winnerAmount),
             entries := s.entries ++
               [reversalEntry room oldId oldW.balance,
                correctionEntry room wid newW.balance],
             rooms := (saveRoom s { room with winner := some wid }).rooms,
             requests := s.requests } := by
  unfold declareCorrectWinner at h
  split at h
  · exact absurd h (by simp)
  next room hroom =>
    split at h
    · exact absurd h (by simp)
    next hst =>
      split at h
      · exact absurd h (by simp)
      next hplayer =>
        split at h
        · exact absurd h (by simp)
        next oldId hwin =>
          split at h
          · exact absurd h (by simp)
          next hne =>
            split at h
            · exact absurd h (by simp)
            next oldW hold =>
              split at h
              · exact absurd h (by simp)
              next newW hnew =>
                split at h
                · exact absurd h (by simp)
                next hbal =>
                  split at h
                  · next hv =>
                      refine ⟨room, oldId, oldW, newW, hroom,
                        by simpa using hst, by simpa using hplayer, hwin,
                        by simpa using hne, hold, hnew, hbal, ?_⟩
                      simpa using h.symm
                  · exact absurd h (by simp)

theorem correctWinner_insufficient {s : St} {rid : String} {wid : Nat}
    {reason : String} {room : GameRoom} {oldId : Nat} {oldW newW : User}
    (hroom : findRoom s rid = some room) (hst : room.status = RoomStatus.completed)
    (hplayer : room.hasPlayer wid = true) (hwin : room.winner = some oldId)
    (hne : oldId ≠ wid) (hold : findUser s oldId = some oldW)
    (hnew : findUser s wid = some newW)
    (hlt : oldW.balance < room.winnerAmount) :
    declareCorrectWinner s rid wid reason =
      Except.error Err.insufficientBalanceForReversal := by
  unfold declareCorrectWinner
  rw [hroom]
  have hne2 : (oldId == wid) = false := by simpa using hne
  simp [hst, hplayer, hwin, hne2, hold, hnew, hlt]

theorem balanceOf_congr {s1 s2 : St} (hu : s1.users = s2.users) (uid : Nat) :
    balanceOf s1 uid = balanceOf s2 uid := by
  unfold balanceOf findUser
  rw [hu]

theorem addMoney_ok_spec {s : St} {uid : Nat} {a : Int} {s1 : St}
    (h : addMoney s uid a = Except.ok s1) :
    ∃ e, createWithBalanceUpdate s uid TxType.deposit a "Money Added to Wallet"
      { } = Except.ok (s1, e) := by
  unfold addMoney at h
  split at h
  · exact absurd h (by simp)
  split at h
  · exact absurd h (by simp)
  split at h
  · exact absurd h (by simp)
  next x s2 e hok =>
    injection h with h2
    subst h2
    exact ⟨e, hok⟩

theorem credit_mutator_ok (t : TxType) (ex : Extra) {s : St} {uid : Nat}
    {amt : Int} {desc : String} {u : User}
    (hcred : (t == TxType.deposit || t == TxType.game_win ||
      t == TxType.refund) = true)
    (hu : findUser s uid = some u) (hamt : 1 ≤ amt) (hdesc : desc ≠ "")
    (hupi : upiPathValid t ex.upiId = true) :
    createWithBalanceUpdate s uid t amt desc ex =
      Except.ok
        ({ s with
           users := setUserBalance s.users uid (u.balance + amt),
           entries := s.entries ++
             [mkEntry uid t amt desc ex u.balance (u.balance + amt)] },
         mkEntry uid t amt desc ex u.balance (u.balance + amt)) := by
  unfold createWithBalanceUpdate commitMutation
  rw [hu]
  simp only []
  rw [if_pos hcred]
  have hv : validEntry (mkEntry uid t amt desc ex u.balance (u.balance + amt)) =
      true := by
    unfold validEntry mkEntry
    simp [hamt, hdesc, hupi]
  rw [if_pos hv]

theorem refundPlayers_ok {roomRef : String} {amt : Int} {desc : String}
    (hamt : 1 ≤ amt) (hdesc : desc ≠ "") :
    ∀ (ps : List Player) (s : St),
      (∀ p ∈ ps, (findUser s p.userId).isSome = true) →
      ∃ sFin newEs, refundPlayers roomRef amt desc s ps = (Except.ok (), sFin) ∧
        sFin.entries = s.entries ++ newEs ∧
        newEs.map (fun e => (e.userId, e.type, e.amount)) =
          ps.map (fun p => (p.userId, TxType.refund, amt)) ∧
        sFin.rooms = s.rooms ∧ sFin.requests = s.requests ∧
        sFin.users.map (fun u => u.id) = s.users.map (fun u => u.id) ∧
        (∀ uid2, (ps.all (fun p => p.userId != uid2)) = true →
          balanceOf sFin uid2 = balanceOf s uid2) ∧
        ((ps.map Player.userId).Nodup →
          ∀ p ∈ ps, balanceOf sFin p.userId = balanceOf s p.userId + amt) := by
  intro ps
  induction ps with
  | nil =>
    intro s hmem
    exact ⟨s, [], rfl, by simp, by simp, rfl, rfl, rfl, fun uid2 _ => rfl,
      fun _ p hp => absurd hp (by simp)⟩
  | cons p rest ih =>
    intro s hmem
    have hup : (findUser s p.userId).isSome = true := hmem p (by simp)
    obtain ⟨u, hu⟩ := Option.isSome_iff_exists.mp hup
    have hcall := credit_mutator_ok TxType.refund { gameRoomId := some roomRef }
      (by decide) hu hamt hdesc (by rfl)
    have hrest : ∀ q ∈ rest,
        (findUser { s with
            users := setUserBalance s.users p.userId (u.balance + amt),
            entries := s.entries ++
              [mkEntry p.userId TxType.refund amt desc
                { gameRoomId := some roomRef } u.balance (u.balance + amt)] }
          q.userId).isSome = true := by
      intro q hq
      have := hmem q (by simp [hq])
      unfold findUser at this ⊢
      simp only []
      rw [find?_setUserBalance]
      by_cases hx : p.userId = q.userId
      · rw [if_pos hx]
        simpa using this
      · rw [if_neg hx]
        exact this
    obtain ⟨sFin, newEs, hrun, hent, hmap, hrooms, hreq, hids, hother, hall⟩ :=
      ih _ hrest
    refine ⟨sFin, mkEntry p.userId TxType.refund amt desc
      { gameRoomId := some roomRef } u.balance (u.balance + amt) :: newEs,
      ?_, ?_, ?_, ?_, ?_, ?_, ?_, ?_⟩
    · unfold refundPlayers
      rw [hcall]
      exact hrun
    · rw [hent]
      simp
    · simp only [List.map_cons, hmap, mkEntry]
    · rw [hrooms]
    · rw [hreq]
    · rw [hids]
      unfold setUserBalance
      simp only [List.map_map]
      apply List.map_congr_left
      intro x hx
      by_cases hxx : x.id = p.userId <;> simp [hxx]
    · intro uid2 hnone
      have hp2 : (p.userId != uid2) = true := by
        have := hnone
        simp only [List.all_cons, Bool.and_eq_true] at this
        exact this.1
      have hrest2 : (rest.all (fun q => q.userId != uid2)) = true := by
        simp only [List.all_cons, Bool.and_eq_true] at hnone
        exact hnone.2
      rw [hother uid2 hrest2]
      have hpu : p.userId ≠ uid2 := by simpa using hp2
      exact balanceOf_setUserBalance rfl hu uid2 |>.trans (by rw [if_neg hpu])
    · intro hnodup q hq
      have hnodup2 : (rest.map Player.userId).Nodup := by
        simpa using hnodup.of_cons
      rcases List.mem_cons.mp hq with hq1 | hq2
      · subst hq1
        have hnotin : (rest.all (fun r2 => r2.userId != q.userId)) = true := by
          simp only [List.map_cons, List.nodup_cons] at hnodup
          rw [List.all_eq_true]
          intro r2 hr2
          have : q.userId ∉ rest.map Player.userId := hnodup.1
          simp only [List.mem_map] at this
          have hne2 : ¬ r2.userId = q.userId := fun hc =>
            this ⟨r2, hr2, hc⟩
          simpa using hne2
        rw [hother q.userId hnotin]
        have hb1 : balanceOf { s with
            users := setUserBalance s.users q.userId (u.balance + amt),
            entries := s.entries ++
              [mkEntry q.userId TxType.refund amt desc
                { gameRoomId := some roomRef } u.balance (u.balance + amt)] }
            q.userId = u.balance + amt := by
          rw [balanceOf_setUserBalance rfl hu q.userId, if_pos rfl]
        have hb0 : balanceOf s q.userId = u.balance := by
          unfold balanceOf
          rw [hu]
          rfl
        rw [hb1, hb0]
      · have hbq := hall hnodup2 q hq2
        rw [hbq]
        have hpq : p.userId ≠ q.userId := by
          simp only [List.map_cons, List.nodup_cons] at hnodup
          intro hc
          exact hnodup.1 (by rw [hc]; exact List.mem_map_of_mem Player.userId hq2)
        have : balanceOf { s with
            users := setUserBalance s.users p.userId (u.balance + amt),
            entries := s.entries ++
              [mkEntry p.userId TxType.refund amt desc
                { gameRoomId := some roomRef } u.balance (u.balance + amt)] }
            q.userId = balanceOf s q.userId := by
          rw [balanceOf_setUserBalance rfl hu q.userId, if_neg hpq]
        rw [this]

theorem refundPlayers_ledger (roomRef : String) (amt : Int) (desc : String) :
    ∀ (ps : List Player) (s : St), LedgerMatches s →
      LedgerMatches (refundPlayers roomRef amt desc s ps).2 := by
  intro ps
  induction ps with
  | nil =>
    intro s hs
    exact hs
  | cons p rest ih =>
    intro s hs
    unfold refundPlayers
    split
    next e heq => exact hs
    next s1 e heq => exact ih s1 (mutOk_ledger heq hs)

theorem balanceOf_setUserBalance2 {s1 s : St} {uidA uidB : Nat} {bA bB : Int}
    {uA uB : User}
    (husers : s1.users = setUserBalance (setUserBalance s.users uidA bA) uidB bB)
    (hA : findUser s uidA = some uA) (hB : findUser s uidB = some uB)
    (hne : uidA ≠ uidB) (uid2 : Nat) :
    balanceOf s1 uid2 =
      if uidB = uid2 then bB
      else if uidA = uid2 then bA else balanceOf s uid2 := by
  unfold balanceOf findUser
  rw [husers, find?_setUserBalance]
  by_cases h2 : uidB = uid2
  · subst h2
    rw [if_pos rfl, if_pos rfl, find?_setUserBalance, if_neg hne]
    unfold findUser at hB
    rw [hB]
    rfl
  · rw [if_neg h2, if_neg h2, find?_setUserBalance]
    by_cases h1 : uidA = uid2
    · subst h1
      rw [if_pos rfl, if_pos rfl]
      unfold findUser at hA
      rw [hA]
      rfl
    · rw [if_neg h1, if_neg h1]

theorem correctWinner_ledger {s : St} {rid : String} {wid : Nat}
    {reason : String} {s1 : St}
    (h : declareCorrectWinner s rid wid reason = Except.ok s1)
    (hs : LedgerMatches s) : LedgerMatches s1 := by
  obtain ⟨room, oldId, oldW, newW, hroom, hst, hpl, hwin, hne, hold, hnew,
    hnlt, hs1⟩ := correctWinner_ok_spec h
  have hneq : oldId ≠ wid := by simpa using hne
  intro uid2
  have hentries : s1.entries = s.entries ++
      [reversalEntry room oldId oldW.balance,
       correctionEntry room wid newW.balance] := by rw [hs1]
  have husers : s1.users =
      setUserBalance
        (setUserBalance s.users oldId (oldW.balance - room.winnerAmount)) wid
        (newW.balance + room.winnerAmount) := by rw [hs1]
  rw [hentries, ledgerSum_append, ledgerSum_cons, ledgerSum_single]
  have hb := balanceOf_setUserBalance2 husers hold hnew hneq uid2
  rw [hb]
  have he1u : (reversalEntry room oldId oldW.balance).userId = oldId := rfl
  have he2u : (correctionEntry room wid newW.balance).userId = wid := rfl
  have hd1 : entryDelta (reversalEntry room oldId oldW.balance) =
    -room.winnerAmount := rfl
  have hd2 : entryDelta (correctionEntry room wid newW.balance) =
    room.winnerAmount := rfl
  rw [he1u, he2u, hd1, hd2]
  have hbo : balanceOf s oldId = oldW.balance := by
    unfold balanceOf
    rw [hold]
    rfl
  have hbn : balanceOf s wid = newW.balance := by
    unfold balanceOf
    rw [hnew]
    rfl
  by_cases h2 : wid = uid2
  · subst h2
    rw [if_pos rfl, if_pos rfl, if_neg hneq, hs wid, hbn]
    omega
  · rw [if_neg h2, if_neg h2]
    by_cases h1 : oldId = uid2
    · subst h1
      rw [if_pos rfl, if_pos rfl, hs oldId, hbo]
      omega
    · rw [if_neg h1, if_neg h1, hs uid2]
      omega

theorem createRoomRest_ledger {s : St} (hs : LedgerMatches s) (uid : Nat)
    (g : String) (a : Int) (m : Nat) (pick : Option String) :
    LedgerMatches (createRoomRest s uid g a m pick).2 := by
  unfold createRoomRest
  split
  · exact hs
  split
  · exact hs
  next user huser =>
    split
    · exact hs
    split
    · exact hs
    next roomId =>
      split
      next e heq => exact hs
      next s1 e heq =>
        split
        · exact show LedgerMatches _ from
            ledgerMatches_same rfl rfl (show LedgerMatches s1 from
              mutOk_ledger heq hs)
        · exact show LedgerMatches s1 from mutOk_ledger heq hs

theorem step_ledger {s : St} (hs : LedgerMatches s) (op : Op) :
    LedgerMatches (step s op) := by
  cases op with
  | register uid n => exact registerUser_ledger hs uid n
  | addMoney uid a =>
    simp only [step]
    split
    next s1 heq =>
      obtain ⟨e, hok⟩ := addMoney_ok_spec heq
      exact mutOk_ledger hok hs
    next => exact hs
  | withdraw uid a up =>
    simp only [step]
    split
    next s1 heq =>
      obtain ⟨s2, e, hok, hs1, -⟩ := withdraw_ok_spec heq
      subst hs1
      exact ledgerMatches_same rfl rfl
        (show LedgerMatches s2 from mutOk_ledger hok hs)
    next => exact hs
  | approveWithdrawal i =>
    simp only [step]
    split
    next s1 heq =>
      obtain ⟨wr, hwr, hpend, hs1⟩ := approve_ok_spec heq
      subst hs1
      exact ledgerMatches_same rfl rfl
        (setEntryStatus_ledger hs wr.transactionId TxStatus.completed)
    next => exact hs
  | rejectWithdrawal i r =>
    simp only [step]
    split
    next s1 heq =>
      obtain ⟨wr, s2, e, hwr, hpend, hok, hs1⟩ := reject_ok_spec heq
      subst hs1
      exact ledgerMatches_same rfl rfl
        (show LedgerMatches s2 from mutOk_ledger hok
          (setEntryStatus_ledger hs wr.transactionId TxStatus.failed))
    next => exact hs
  | cancelWithdrawal uid i =>
    simp only [step]
    split
    next s1 heq =>
      obtain ⟨wr, s2, e, hwr, howner, hpend, hok, hs1⟩ := cancelW_ok_spec heq
      subst hs1
      exact ledgerMatches_same rfl rfl
        (show LedgerMatches s2 from mutOk_ledger hok
          (setEntryStatus_ledger hs wr.transactionId TxStatus.cancelled))
    next => exact hs
  | createRoom uid g a m rc gens =>
    simp only [step]
    unfold createRoom
    split
    · exact hs
    split
    · exact hs
    split
    next code =>
      split
      · exact hs
      split
      · exact hs
      · exact createRoomRest_ledger hs uid g a m (some code)
    next => exact createRoomRest_ledger hs uid g a m (pickRoomId s gens 0)
  | joinRoom fp rid uid =>
    simp only [step]
    unfold joinRoom
    split
    · exact hs
    next room hroom =>
      split
      · exact hs
      split
      · exact hs
      split
      · exact hs
      split
      · exact hs
      next user huser =>
        split
        · exact hs
        split
        next e heq => exact hs
        next s1 e heq =>
          split
          next e2 heq2 => exact show LedgerMatches s1 from mutOk_ledger heq hs
          next room1 heq2 =>
            split
            next e3 heq3 =>
              exact show LedgerMatches s1 from mutOk_ledger heq hs
            next room2 heq3 =>
              exact show LedgerMatches (saveRoom s1 room2) from
                ledgerMatches_same rfl rfl
                  (show LedgerMatches s1 from mutOk_ledger heq hs)
  | declareWinner rid uid wid =>
    simp only [step]
    unfold declareWinner
    split
    · exact hs
    next room hroom =>
      split
      · exact hs
      split
      · exact hs
      split
      · exact hs
      split
      next e heq => exact hs
      next room1 heq =>
        simp only []
        split
        next e2 heq2 =>
          exact show LedgerMatches (saveRoom s room1) from
            ledgerMatches_same rfl rfl hs
        next s2 e2 heq2 =>
          exact show LedgerMatches s2 from mutOk_ledger heq2
            (show LedgerMatches (saveRoom s room1) from
              ledgerMatches_same rfl rfl hs)
  | cancelRoomAdmin rid r =>
    simp only [step]
    unfold cancelRoom
    split
    · exact hs
    next room hroom =>
      split
      · exact hs
      split
      · exact hs
      split
      next e s1 heq =>
        have hled := refundPlayers_ledger room.roomId room.amount
          ("Room cancelled by admin - " ++ r) room.players s hs
        rw [heq] at hled
        exact hled
      next s1 heq =>
        have hled := refundPlayers_ledger room.roomId room.amount
          ("Room cancelled by admin - " ++ r) room.players s hs
        rw [heq] at hled
        exact ledgerMatches_same rfl rfl hled
  | correctWinner rid wid r =>
    simp only [step]
    split
    next s1 heq => exact correctWinner_ledger heq hs
    next => exact hs

/-- C4 counterexample: after a deposit of 1000 and a withdrawal submission of
300 the store is quiescent, the live balance is 700, but folding only the
ledger entries with status completed yields 1000 (the withdrawal entry is
created with status pending), so replay over completed entries does not
reproduce the live balance. -/
theorem ledger_replay_completed_fails :
    balanceOf wC4res 1 = 700 ∧ ledgerSumCompleted wC4res.entries 1 = 1000 ∧
      ¬ ledgerSumCompleted wC4res.entries 1 = balanceOf wC4res 1 := by
  refine ⟨by decide, by decide, by decide⟩

/-- C4 (amended): folding ALL of a user's ledger entries, regardless of
status, in creation order starting from 0 reproduces the live balance for
every user after any sequence of operations, at every quiescent point.
Restricting the fold to status-completed entries fails (see the
counterexample), because withdrawal submissions create their debit entry
with status pending and the reject flow marks debited entries failed while
compensating with completed refunds. -/
theorem ledger_replay_all_entries (s : St) (ops : List Op)
    (hs : LedgerMatches s) : LedgerMatches (run s ops) := by
  induction ops generalizing s with
  | nil => exact hs
  | cons op rest ih => exact ih (step s op) (step_ledger hs op)

/-- C4 witness: the replay invariant holds along the sample trace from the
empty store. -/
theorem ledger_replay_all_entries_witness :
    LedgerMatches (run emptySt wC4ops) :=
  ledger_replay_all_entries emptySt wC4ops (fun _ => rfl)

theorem pendingLimit_of_requests_eq {s1 s2 : St} (h : s1.requests = s2.requests)
    (hs : PendingLimit s2) : PendingLimit s1 := by
  intro uid
  unfold countPending
  rw [h]
  exact hs uid

theorem refundPlayers_requests (roomRef : String) (amt : Int) (desc : String) :
    ∀ (ps : List Player) (s : St),
      (refundPlayers roomRef amt desc s ps).2.requests = s.requests := by
  intro ps
  induction ps with
  | nil => intro s; rfl
  | cons p rest ih =>
    intro s
    unfold refundPlayers
    split
    next e heq => rfl
    next s1 e heq =>
      obtain ⟨u, -, -, -, -, -, hreq, -, -⟩ := createWithBalanceUpdate_ok_spec heq
      rw [ih s1, hreq]

theorem pendingFilter_set_le (rs : List WithdrawalRequest) (i : Nat)
    (wr : WithdrawalRequest) (st : WStatus)
    (hst : (st == WStatus.pending) = false) (h : rs[i]? = some wr) (uid : Nat) :
    (List.filter (fun r => r.userId == uid && r.status == WStatus.pending)
      (rs.set i ({ wr with status := st }))).length ≤
    (rs.filter (fun r => r.userId == uid && r.status == WStatus.pending)).length := by
  induction rs generalizing i with
  | nil => simp at h
  | cons x rest ih =>
    cases i with
    | zero =>
      simp only [List.getElem?_cons_zero, Option.some.injEq] at h
      subst h
      rw [List.set_cons_zero]
      simp only [List.filter_cons]
      have hfalse : (x.userId == uid && (st == WStatus.pending)) = false := by
        rw [hst]
        exact Bool.and_false _
      rw [hfalse]
      simp only [Bool.false_eq_true, if_false]
      split
      · exact Nat.le_succ _
      · exact Nat.le_refl _
    | succ n =>
      simp only [List.getElem?_cons_succ] at h
      rw [List.set_cons_succ]
      simp only [List.filter_cons]
      split
      · exact Nat.succ_le_succ (ih n h)
      · exact ih n h

theorem countPending_zero {s : St} {uid : Nat}
    (h : s.requests.any
      (fun r => r.userId == uid && r.status == WStatus.pending) = false) :
    countPending s uid = 0 := by
  unfold countPending
  rw [List.length_eq_zero, List.filter_eq_nil]
  intro a ha
  have := List.any_eq_false.mp h a ha
  simpa using this

theorem countPending_after_withdraw {s s1 : St} {uid : Nat}
    {req : WithdrawalRequest} (hreq : s1.requests = s.requests ++ [req])
    (hu : req.userId = uid) (hp : req.status = WStatus.pending) (uid2 : Nat) :
    countPending s1 uid2 =
      countPending s uid2 + (if uid = uid2 then 1 else 0) := by
  unfold countPending
  rw [hreq, List.filter_append, List.length_append]
  congr 1
  by_cases hx : uid = uid2
  · subst hx
    simp [List.filter, hu, hp]
  · have : (uid == uid2) = false := by simpa using hx
    simp [List.filter, hu, hp, this, hx]

theorem createRoomRest_requests (s : St) (uid : Nat) (g : String) (a : Int)
    (m : Nat) (pick : Option String) :
    (createRoomRest s uid g a m pick).2.requests = s.requests := by
  unfold createRoomRest
  split
  · rfl
  split
  · rfl
  next user huser =>
    split
    · rfl
    split
    · rfl
    next roomId =>
      split
      next e heq => rfl
      next s1 e heq =>
        obtain ⟨u, -, -, -, -, -, hreq, -, -⟩ :=
          createWithBalanceUpdate_ok_spec heq
        split
        · exact hreq
        · exact hreq

theorem step_pending {s : St} (hs : PendingLimit s) (op : Op) :
    PendingLimit (step s op) := by
  cases op with
  | register uid n =>
    refine pendingLimit_of_requests_eq ?_ hs
    simp only [step]
    unfold registerUser
    cases findUser s uid <;> rfl
  | addMoney uid a =>
    simp only [step]
    split
    next s1 heq =>
      obtain ⟨e, hok⟩ := addMoney_ok_spec heq
      obtain ⟨u, -, -, -, -, -, hreq, -, -⟩ := createWithBalanceUpdate_ok_spec hok
      exact pendingLimit_of_requests_eq hreq hs
    next => exact hs
  | withdraw uid a up =>
    simp only [step]
    split
    next s1 heq =>
      obtain ⟨s2, e, hok, hs1, hnone⟩ := withdraw_ok_spec heq
      obtain ⟨u, -, -, -, -, -, hreq2, -, -⟩ := createWithBalanceUpdate_ok_spec hok
      intro uid2
      have hzero : countPending s uid = 0 := countPending_zero hnone
      have hreqs : s1.requests = s.requests ++
          [{ userId := uid, transactionId := s.entries.length, amount := a,
             upiId := up, status := WStatus.pending }] := by
        rw [hs1]
        simp only []
        rw [hreq2]
      have := countPending_after_withdraw hreqs rfl rfl uid2
      rw [this]
      by_cases hx : uid = uid2
      · subst hx
        rw [hzero]
        simp
      · have h2 := hs uid2
        simp [hx]
        omega
    next => exact hs
  | approveWithdrawal i =>
    simp only [step]
    split
    next s1 heq =>
      obtain ⟨wr, hwr, hpend, hs1⟩ := approve_ok_spec heq
      intro uid2
      have hreqs : s1.requests =
          s.requests.set i ({ wr with status := WStatus.approved }) := by
        rw [hs1]
        simp only []
        rw [(setEntryStatus_parts s wr.transactionId TxStatus.completed).2.2]
      unfold countPending
      rw [hreqs]
      exact le_trans
        (pendingFilter_set_le s.requests i wr WStatus.approved (by decide) hwr
          uid2) (hs uid2)
    next => exact hs
  | rejectWithdrawal i r =>
    simp only [step]
    split
    next s1 heq =>
      obtain ⟨wr, s2, e, hwr, hpend, hok, hs1⟩ := reject_ok_spec heq
      obtain ⟨u, -, -, -, -, -, hreq2, -, -⟩ := createWithBalanceUpdate_ok_spec hok
      intro uid2
      have hreqs : s1.requests =
          s.requests.set i ({ wr with status := WStatus.rejected }) := by
        rw [hs1]
        simp only []
        rw [hreq2,
          (setEntryStatus_parts s wr.transactionId TxStatus.failed).2.2]
      unfold countPending
      rw [hreqs]
      exact le_trans
        (pendingFilter_set_le s.requests i wr WStatus.rejected (by decide) hwr
          uid2) (hs uid2)
    next => exact hs
  | cancelWithdrawal uid i =>
    simp only [step]
    split
    next s1 heq =>
      obtain ⟨wr, s2, e, hwr, howner, hpend, hok, hs1⟩ := cancelW_ok_spec heq
      obtain ⟨u, -, -, -, -, -, hreq2, -, -⟩ := createWithBalanceUpdate_ok_spec hok
      intro uid2
      have hreqs : s1.requests =
          s.requests.set i ({ wr with status := WStatus.cancelled }) := by
        rw [hs1]
        simp only []
        rw [hreq2,
          (setEntryStatus_parts s wr.transactionId TxStatus.cancelled).2.2]
      unfold countPending
      rw [hreqs]
      exact le_trans
        (pendingFilter_set_le s.requests i wr WStatus.cancelled (by decide) hwr
          uid2) (hs uid2)
    next => exact hs
  | createRoom uid g a m rc gens =>
    simp only [step]
    unfold createRoom
    split
    · exact hs
    split
    · exact hs
    split
    next code =>
      split
      · exact hs
      split
      · exact hs
      · exact pendingLimit_of_requests_eq
          (createRoomRest_requests s uid g a m (some code)) hs
    next =>
      exact pendingLimit_of_requests_eq
        (createRoomRest_requests s uid g a m (pickRoomId s gens 0)) hs
  | joinRoom fp rid uid =>
    simp only [step]
    unfold joinRoom
    split
    · exact hs
    next room hroom =>
      split
      · exact hs
      split
      · exact hs
      split
      · exact hs
      split
      · exact hs
      next user huser =>
        split
        · exact hs
        split
        next e heq => exact hs
        next s1 e heq =>
          obtain ⟨u, -, -, -, -, -, hreq2, -, -⟩ :=
            createWithBalanceUpdate_ok_spec heq
          split
          next e2 heq2 => exact pendingLimit_of_requests_eq hreq2 hs
          next room1 heq2 =>
            split
            next e3 heq3 => exact pendingLimit_of_requests_eq hreq2 hs
            next room2 heq3 =>
              exact pendingLimit_of_requests_eq
                (show (saveRoom s1 room2).requests = s.requests from hreq2) hs
  | declareWinner rid uid wid =>
    simp only [step]
    unfold declareWinner
    split
    · exact hs
    next room hroom =>
      split
      · exact hs
      split
      · exact hs
      split
      · exact hs
      split
      next e heq => exact hs
      next room1 heq =>
        simp only []
        split
        next e2 heq2 =>
          exact pendingLimit_of_requests_eq
            (show (saveRoom s room1).requests = s.requests from rfl) hs
        next s2 e2 heq2 =>
          obtain ⟨u, -, -, -, -, -, hreq2, -, -⟩ :=
            createWithBalanceUpdate_ok_spec heq2
          exact pendingLimit_of_requests_eq
            (show s2.requests = s.requests from hreq2) hs
  | cancelRoomAdmin rid r =>
    simp only [step]
    unfold cancelRoom
    split
    · exact hs
    next room hroom =>
      split
      · exact hs
      split
      · exact hs
      split
      next e s1 heq =>
        have hrq := refundPlayers_requests room.roomId room.amount
          ("Room cancelled by admin - " ++ r) room.players s
        rw [heq] at hrq
        exact pendingLimit_of_requests_eq hrq hs
      next s1 heq =>
        have hrq := refundPlayers_requests room.roomId room.amount
          ("Room cancelled by admin - " ++ r) room.players s
        rw [heq] at hrq
        exact pendingLimit_of_requests_eq
          (show (saveRoom s1 { room with status := RoomStatus.cancelled
            }).requests = s.requests from hrq) hs
  | correctWinner rid wid r =>
    simp only [step]
    split
    next s1 heq =>
      obtain ⟨room, oldId, oldW, newW, -, -, -, -, -, -, -, -, hs1⟩ :=
        correctWinner_ok_spec heq
      refine pendingLimit_of_requests_eq ?_ hs
      rw [hs1]
    next => exact hs

/-- C9: at most one pending withdrawal request per user at any time: a
submission while a pending request exists never succeeds; a successful
submission appends exactly one new pending request referencing the debit
entry, starting from zero pending requests; and the at-most-one-pending
invariant is preserved by every operation sequence. -/
theorem single_pending_withdrawal :
    (∀ (s : St) (uid : Nat) (amt : Int) (upi : String) (s1 : St),
      s.requests.any
        (fun r => r.userId == uid && r.status == WStatus.pending) = true →
      withdraw 100 50000 s uid amt upi ≠ Except.ok s1) ∧
    (∀ (s : St) (uid : Nat) (amt : Int) (upi : String) (s1 : St),
      withdraw 100 50000 s uid amt upi = Except.ok s1 →
      s1.requests = s.requests ++
        [{ userId := uid, transactionId := s.entries.length, amount := amt,
           upiId := upi, status := WStatus.pending }] ∧
      countPending s1 uid = countPending s uid + 1 ∧
      countPending s uid = 0) ∧
    (∀ (s : St) (ops : List Op), PendingLimit s → PendingLimit (run s ops)) := by
  refine ⟨?_, ?_, ?_⟩
  · intro s uid amt upi s1 hany hok
    obtain ⟨s2, e, -, -, hnone⟩ := withdraw_ok_spec hok
    rw [hany] at hnone
    exact absurd hnone (by simp)
  · intro s uid amt upi s1 hok
    obtain ⟨s2, e, hmut, hs1, hnone⟩ := withdraw_ok_spec hok
    obtain ⟨u, -, -, -, -, -, hreq2, -, -⟩ := createWithBalanceUpdate_ok_spec hmut
    have hreqs : s1.requests = s.requests ++
        [{ userId := uid, transactionId := s.entries.length, amount := amt,
           upiId := upi, status := WStatus.pending }] := by
      rw [hs1]
      simp only []
      rw [hreq2]
    refine ⟨hreqs, ?_, countPending_zero hnone⟩
    have hcp := countPending_after_withdraw hreqs rfl rfl uid
    rw [hcp, if_pos rfl]
  · intro s ops hs
    induction ops generalizing s with
    | nil => exact hs
    | cons op rest ih => exact ih (step s op) (step_pending hs op)

/-- C9 witness: on the store where Alice already has a pending request a new
submission fails; on the fresh store a submission appends one pending
request; and the invariant holds along the sample trace. -/
theorem single_pending_withdrawal_witness :
    withdraw 100 50000 wS9 1 300 "a@b" ≠ Except.ok wS9 ∧
    (wS9res.requests = wS0.requests ++
        [{ userId := 1, transactionId := wS0.entries.length, amount := 300,
           upiId := "a@b", status := WStatus.pending }] ∧
      countPending wS9res 1 = countPending wS0 1 + 1 ∧
      countPending wS0 1 = 0) ∧
    PendingLimit (run wS0 wC4ops) :=
  ⟨single_pending_withdrawal.1 wS9 1 300 "a@b" wS9 (by decide),
   single_pending_withdrawal.2.1 wS0 1 300 "a@b" wS9res rfl,
   single_pending_withdrawal.2.2 wS0 wC4ops (fun _ => Nat.zero_le 1)⟩

theorem reversalEntry_valid (room : GameRoom) (oldId : Nat) (b : Int)
    (hamt : 1 ≤ room.winnerAmount) :
    validEntry (reversalEntry room oldId b) = true := by
  simp [validEntry, reversalEntry, upiPathValid, hamt]
  exact append_ne_empty_of_length room.roomId (by decide)

theorem correctionEntry_valid (room : GameRoom) (wid : Nat) (b : Int)
    (hamt : 1 ≤ room.winnerAmount) :
    validEntry (correctionEntry room wid b) = true := by
  simp [validEntry, correctionEntry, upiPathValid, hamt]
  exact append_ne_empty_of_length room.roomId (by decide)

/-- C6: a winner correction on a completed room whose recorded winner
differs from the requested new winner (a player of the room) fails with no
change when the old winner's balance is below the frozen winnerAmount; when
it covers it, the correction debits the old winner by winnerAmount, credits
the new winner by winnerAmount, appends exactly two ledger entries (a
withdrawal-type reversal for the old winner and a game_win-type correction
for the new winner, both of amount winnerAmount) and updates the room's
winner reference. -/
theorem declareCorrectWinner_spec (s : St) (rid : String) (wid : Nat)
    (reason : String) (room : GameRoom) (oldId : Nat) (oldW newW : User)
    (hroom : findRoom s rid = some room)
    (hst : room.status = RoomStatus.completed)
    (hplayer : room.hasPlayer wid = true) (hwin : room.winner = some oldId)
    (hne : oldId ≠ wid) (hold : findUser s oldId = some oldW)
    (hnew : findUser s wid = some newW) (hamt : 1 ≤ room.winnerAmount) :
    (oldW.balance < room.winnerAmount →
      declareCorrectWinner s rid wid reason =
        Except.error Err.insufficientBalanceForReversal) ∧
    (room.winnerAmount ≤ oldW.balance →
      ∃ s1, declareCorrectWinner s rid wid reason = Except.ok s1 ∧
        balanceOf s1 oldId = oldW.balance - room.winnerAmount ∧
        balanceOf s1 wid = newW.balance + room.winnerAmount ∧
        s1.entries = s.entries ++
          [reversalEntry room oldId oldW.balance,
           correctionEntry room wid newW.balance] ∧
        (reversalEntry room oldId oldW.balance).type = TxType.withdrawal ∧
        (reversalEntry room oldId oldW.balance).amount = room.winnerAmount ∧
        (correctionEntry room wid newW.balance).type = TxType.game_win ∧
        (correctionEntry room wid newW.balance).amount = room.winnerAmount ∧
        findRoom s1 rid = some ({ room with winner := some wid })) := by
  constructor
  · intro hlt
    exact correctWinner_insufficient hroom hst hplayer hwin hne hold hnew hlt
  · intro hge
    have hnlt : ¬ oldW.balance < room.winnerAmount := not_lt.mpr hge
    have hne2 : (oldId == wid) = false := by simpa using hne
    have hv1 := reversalEntry_valid room oldId oldW.balance hamt
    have hv2 := correctionEntry_valid room wid newW.balance hamt
    refine ⟨{ users :=
                setUserBalance
                  (setUserBalance s.users oldId
                    (oldW.balance - room.winnerAmount))
                  wid (newW.balance + room.winnerAmount),
              entries := s.entries ++
                [reversalEntry room oldId oldW.balance,
                 correctionEntry room wid newW.balance],
              rooms := (saveRoom s { room with winner := some wid }).rooms,
              requests := s.requests }, ?_, ?_, ?_, rfl, rfl, rfl, rfl, rfl, ?_⟩
    · unfold declareCorrectWinner
      rw [hroom]
      simp [hst, hplayer, hwin, hne2, hold, hnew, hnlt, hv1, hv2]
    · rw [balanceOf_setUserBalance2 rfl hold hnew hne oldId,
        if_neg (fun hc => hne hc.symm), if_pos rfl]
    · rw [balanceOf_setUserBalance2 rfl hold hnew hne wid, if_pos rfl]
    · show findRoom (saveRoom s { room with winner := some wid }) rid = _
      exact findRoom_saveRoom hroom rfl

/-- C6 witness: on the sample completed room (winnerAmount 180, old winner
Alice at 580) the correction would fail if 580 were below 180, and since it
is not, it succeeds, moving 180 from Alice to Bob with the two correction
entries and the updated winner. -/
theorem declareCorrectWinner_spec_witness :
    (aliceRich.balance < wRoomC6.winnerAmount →
      declareCorrectWinner wS6 "LK654321" 2 "fix" =
        Except.error Err.insufficientBalanceForReversal) ∧
    (wRoomC6.winnerAmount ≤ aliceRich.balance →
      ∃ s1, declareCorrectWinner wS6 "LK654321" 2 "fix" = Except.ok s1 ∧
        balanceOf s1 1 = aliceRich.balance - wRoomC6.winnerAmount ∧
        balanceOf s1 2 = bobU.balance + wRoomC6.winnerAmount ∧
        s1.entries = wS6.entries ++
          [reversalEntry wRoomC6 1 aliceRich.balance,
           correctionEntry wRoomC6 2 bobU.balance] ∧
        (reversalEntry wRoomC6 1 aliceRich.balance).type = TxType.withdrawal ∧
        (reversalEntry wRoomC6 1 aliceRich.balance).amount =
          wRoomC6.winnerAmount ∧
        (correctionEntry wRoomC6 2 bobU.balance).type = TxType.game_win ∧
        (correctionEntry wRoomC6 2 bobU.balance).amount =
          wRoomC6.winnerAmount ∧
        findRoom s1 "LK654321" = some ({ wRoomC6 with winner := some 2 })) :=
  declareCorrectWinner_spec wS6 "LK654321" 2 "fix" wRoomC6 1 aliceRich bobU
    rfl rfl rfl rfl (by decide) rfl rfl (by decide)

/-- C7: an admin cancellation of a room that is not already completed or
cancelled refunds every current player exactly the room's entry amount
through one refund ledger entry per player and transitions the room to
cancelled. -/
theorem cancelRoom_refunds_all (s : St) (rid : String) (reason : String)
    (room : GameRoom)
    (hroom : findRoom s rid = some room)
    (hnc : room.status ≠ RoomStatus.cancelled)
    (hncmp : room.status ≠ RoomStatus.completed)
    (hamt : 1 ≤ room.amount)
    (husers : ∀ p ∈ room.players, (findUser s p.userId).isSome = true)
    (hnodup : (room.players.map Player.userId).Nodup) :
    ∃ sFin newEs, cancelRoom s rid reason = (Except.ok (), sFin) ∧
      findRoom sFin rid = some ({ room with status := RoomStatus.cancelled }) ∧
      sFin.entries = s.entries ++ newEs ∧
      newEs.map (fun e => (e.userId, e.type, e.amount)) =
        room.players.map (fun p => (p.userId, TxType.refund, room.amount)) ∧
      ∀ p ∈ room.players,
        balanceOf sFin p.userId = balanceOf s p.userId + room.amount := by
  have hdesc : ("Room cancelled by admin - " ++ reason) ≠ "" :=
    append_ne_empty_of_length reason (by decide)
  obtain ⟨sMid, newEs, hrun, hent, hmap, hrooms, hreqs, hids, hother, hall⟩ :=
    refundPlayers_ok hamt hdesc room.players s husers
  have h1 : (room.status == RoomStatus.cancelled) = false := by simpa using hnc
  have h2 : (room.status == RoomStatus.completed) = false := by simpa using hncmp
  refine ⟨saveRoom sMid { room with status := RoomStatus.cancelled }, newEs,
    ?_, ?_, ?_, hmap, ?_⟩
  · unfold cancelRoom
    rw [hroom]
    simp only [h1, h2, Bool.false_eq_true, if_false]
    rw [hrun]
  · have hfm : findRoom sMid rid = some room := by
      unfold findRoom
      rw [hrooms]
      exact hroom
    exact findRoom_saveRoom hfm rfl
  · exact hent
  · intro p hp
    have hb := hall hnodup p hp
    exact (balanceOf_congr rfl p.userId).trans hb

/-- C7 witness: admin-cancelling the sample two-player room refunds both
players exactly 100 each through two refund entries and marks the room
cancelled. -/
theorem cancelRoom_refunds_all_witness :
    ∃ sFin newEs, cancelRoom wS7 "LK777777" "dispute" = (Except.ok (), sFin) ∧
      findRoom sFin "LK777777" =
        some ({ wRoomC7 with status := RoomStatus.cancelled }) ∧
      sFin.entries = wS7.entries ++ newEs ∧
      newEs.map (fun e => (e.userId, e.type, e.amount)) =
        wRoomC7.players.map (fun p => (p.userId, TxType.refund, wRoomC7.amount)) ∧
      ∀ p ∈ wRoomC7.players,
        balanceOf sFin p.userId = balanceOf wS7 p.userId + wRoomC7.amount :=
  cancelRoom_refunds_all wS7 "LK777777" "dispute" wRoomC7 rfl (by decide)
    (by decide) (by decide) (by decide) (by decide)

/-- C8: rejecting a withdrawal request succeeds only from pending (a
non-pending request yields the not-pending error and no state change); for
a submission followed by its rejection, the linked ledger entry is marked
failed, a refund entry crediting exactly the original amount is appended,
the request transitions to rejected and the user's balance returns to its
pre-submission value. -/
theorem withdrawal_reject_restores_balance (s : St) (uid : Nat) (amt : Int)
    (upi : String) (reason : String) (s1 s2 : St) (u : User)
    (hu : findUser s uid = some u)
    (hw : withdraw 100 50000 s uid amt upi = Except.ok s1)
    (hr : rejectWithdrawalRequest s1 s.requests.length reason = Except.ok s2) :
    balanceOf s2 uid = u.balance ∧
    (∃ eW eR,
      s1.entries = s.entries ++ [eW] ∧ eW.type = TxType.withdrawal ∧
      eW.amount = amt ∧ eW.status = TxStatus.pending ∧
      s2.entries = s1.entries.set s.entries.length
        ({ eW with status := TxStatus.failed }) ++ [eR] ∧
      eR.type = TxType.refund ∧ eR.amount = amt ∧
      eR.status = TxStatus.completed ∧
      s2.requests[s.requests.length]? =
        some { userId := uid, transactionId := s.entries.length, amount := amt,
               upiId := upi, status := WStatus.rejected }) ∧
    (∀ (s3 : St) (i : Nat) (wr : WithdrawalRequest) (r2 : String),
      r2.isEmpty = false → s3.requests[i]? = some wr →
      wr.status ≠ WStatus.pending →
      rejectWithdrawalRequest s3 i r2 = Except.error Err.notPending) := by
  obtain ⟨sd, eW, hmut, hs1, hnone⟩ := withdraw_ok_spec hw
  obtain ⟨u0, hfu0, heW, husersd, hentd, hroomsd, hreqd, hvW, -⟩ :=
    createWithBalanceUpdate_ok_spec hmut
  rw [hu] at hfu0
  injection hfu0 with hu0e
  subst hu0e
  have hs1e : s1.entries = s.entries ++ [eW] := by
    rw [hs1]
    simp only []
    exact hentd
  have hs1u : s1.users =
      setUserBalance s.users uid
        (u.balance + signedDelta TxType.withdrawal amt) := by
    rw [hs1]
    simp only []
    exact husersd
  have hs1r : s1.requests = s.requests ++
      [{ userId := uid, transactionId := s.entries.length, amount := amt,
         upiId := upi, status := WStatus.pending }] := by
    rw [hs1]
    simp only []
    rw [hreqd]
  obtain ⟨wr, s2m, eR, hwr, hpend, hokR, hs2⟩ := reject_ok_spec hr
  have hwr2 : wr =
      { userId := uid, transactionId := s.entries.length,
        amount := amt, upiId := upi, status := WStatus.pending } := by
    rw [hs1r, List.getElem?_concat_length] at hwr
    injection hwr with hx
    exact hx.symm
  subst hwr2
  have hidx : s1.entries[s.entries.length]? = some eW := by
    rw [hs1e]
    exact List.getElem?_concat_length _ _
  have hs1fe : (setEntryStatus s1 s.entries.length TxStatus.failed).entries =
      s1.entries.set s.entries.length ({ eW with status := TxStatus.failed }) := by
    unfold setEntryStatus
    rw [hidx]
  have hs1fu : (setEntryStatus s1 s.entries.length TxStatus.failed).users =
      s1.users :=
    (setEntryStatus_parts s1 s.entries.length TxStatus.failed).1
  have hs1fr : (setEntryStatus s1 s.entries.length TxStatus.failed).requests =
      s1.requests :=
    (setEntryStatus_parts s1 s.entries.length TxStatus.failed).2.2
  obtain ⟨u2, hfu2, heR, husersR, hentR, hroomsR, hreqR, hvR, -⟩ :=
    createWithBalanceUpdate_ok_spec hokR
  have hfu1 : findUser (setEntryStatus s1 s.entries.length TxStatus.failed)
      uid = some ({ u with
        balance := u.balance + signedDelta TxType.withdrawal amt }) := by
    unfold findUser
    rw [hs1fu, hs1u, find?_setUserBalance, if_pos rfl]
    unfold findUser at hu
    rw [hu]
    rfl
  have hu2e : u2 = { u with
      balance := u.balance + signedDelta TxType.withdrawal amt } := by
    rw [hfu1] at hfu2
    injection hfu2 with hx
    exact hx.symm
  subst hu2e
  refine ⟨?_, ⟨eW, eR, hs1e, ?_, ?_, ?_, ?_, ?_, ?_, ?_, ?_⟩, ?_⟩
  · have hbal : balanceOf s2 uid =
        u.balance + signedDelta TxType.withdrawal amt + amt := by
      have husers2 : s2.users = setUserBalance
          (setEntryStatus s1 s.entries.length TxStatus.failed).users uid
          (u.balance + signedDelta TxType.withdrawal amt +
            signedDelta TxType.refund amt) := by
        rw [hs2]
        simp only []
        exact husersR
      rw [balanceOf_setUserBalance husers2 hfu1 uid, if_pos rfl]
      rfl
    rw [hbal]
    simp only [signedDelta]
    omega
  · rw [heW]
    rfl
  · rw [heW]
    rfl
  · rw [heW]
    rfl
  · rw [hs2]
    simp only []
    rw [hentR, hs1fe]
  · rw [heR]
    rfl
  · rw [heR]
    rfl
  · rw [heR]
    rfl
  · rw [hs2]
    simp only []
    rw [hreqR, hs1fr, hs1r]
    have hlt : s.requests.length < (s.requests ++
        [({ userId := uid, transactionId := s.entries.length, amount := amt,
            upiId := upi, status := WStatus.pending } : WithdrawalRequest)]).length := by
      simp
    rw [List.getElem?_set_self hlt]
  · intro s3 i wr r2 hie hwr3 hnp
    have hnp2 : (wr.status != WStatus.pending) = true := by simpa using hnp
    unfold rejectWithdrawalRequest
    simp [hie, hwr3, hnp2]

/-- C8 witness: Alice (balance 500) submits a withdrawal of 300 (balance
200, request pending), the admin rejects it, and the balance returns to
500 with a failed withdrawal entry, a refund entry of 300 and the request
rejected. -/
theorem withdrawal_reject_restores_balance_witness :
    balanceOf wS8res 1 = aliceU.balance ∧
    (∃ eW eR,
      wS9res.entries = wS0.entries ++ [eW] ∧ eW.type = TxType.withdrawal ∧
      eW.amount = 300 ∧ eW.status = TxStatus.pending ∧
      wS8res.entries = wS9res.entries.set wS0.entries.length
        ({ eW with status := TxStatus.failed }) ++ [eR] ∧
      eR.type = TxType.refund ∧ eR.amount = 300 ∧
      eR.status = TxStatus.completed ∧
      wS8res.requests[wS0.requests.length]? =
        some { userId := 1, transactionId := wS0.entries.length, amount := 300,
               upiId := "a@b", status := WStatus.rejected }) ∧
    (∀ (s3 : St) (i : Nat) (wr : WithdrawalRequest) (r2 : String),
      r2.isEmpty = false → s3.requests[i]? = some wr →
      wr.status ≠ WStatus.pending →
      rejectWithdrawalRequest s3 i r2 = Except.error Err.notPending) :=
  withdrawal_reject_restores_balance wS0 1 300 "a@b" "invalid upi" wS9res
    wS8res aliceU rfl rfl rfl

/-- C3: the entry-fee debit is NOT rolled back when the room cannot be
persisted.  createWithBalanceUpdate commits its own storage session, so the
controller's surrounding session only covers the room insert: on the sample
store, createRoom with the schema-invalid gameType Chess fails at the room
save yet leaves the creator debited by 100 with a game_loss ledger entry
and no room — the store is not as it was before the call, contradicting the
all-or-nothing claim.  (The code path is reached deterministically because
the controller never validates gameType; the same non-atomicity applies to
any room-save failure after the debit, e.g. a concurrent duplicate room
code.) -/
theorem createRoom_debit_not_rolled_back :
    (createRoom wS0 1 "Chess" 100 2 (some "LK222222") []).1 =
        Except.error Err.roomSaveFailed ∧
      (createRoom wS0 1 "Chess" 100 2 (some "LK222222") []).2 ≠ wS0 ∧
      balanceOf (createRoom wS0 1 "Chess" 100 2 (some "LK222222") []).2 1 =
        400 ∧
      ((createRoom wS0 1 "Chess" 100 2 (some "LK222222") []).2.entries.map
        (fun e => (e.userId, e.type, e.amount))) =
        [(1, TxType.game_loss, 100)] ∧
      (createRoom wS0 1 "Chess" 100 2 (some "LK222222") []).2.rooms = [] := by
  exact ⟨rfl, by decide, by decide, by decide, rfl⟩

/-- C10: the upiId constraint on withdrawal-type entries is not enforced for
absent upiId values.  The schema validator function itself rejects a
withdrawal document with an undefined or empty upiId, but Mongoose skips
custom validators on undefined paths, so the winner-correction protocol's
withdrawal-type reversal entry — built with no upiId at all — passes
validation: on the sample store the correction succeeds and persists a
withdrawal entry whose upiId is absent, contradicting the claim that such
an insertion aborts the atomic unit. -/
theorem withdrawal_upi_not_enforced :
    upiValidator TxType.withdrawal none = false ∧
    upiValidator TxType.withdrawal (some "") = false ∧
    upiPathValid TxType.withdrawal none = true ∧
    declareCorrectWinner wS6 "LK654321" 2 "fix" = Except.ok wS6res ∧
    (reversalEntry wRoomC6 1 580).type = TxType.withdrawal ∧
    (reversalEntry wRoomC6 1 580).upiId = none ∧
    (reversalEntry wRoomC6 1 580) ∈ wS6res.entries := by
  refine ⟨by decide, by decide, by decide, rfl, rfl, rfl, by decide⟩

/-- C5: a joinRoom call that brings a waiting room to exactly maxPlayers
players transitions the room to playing with startedAt stamped and freezes
totalPrizePool as amount times playerCount, platformFee as the floor of
totalPrizePool times feePercent over 100, and winnerAmount as the
difference, so winnerAmount plus platformFee is exactly totalPrizePool. -/
theorem joinRoom_full_starts_game (fp : Int) (s : St) (rid : String) (uid : Nat)
    (sFin : St) (room : GameRoom)
    (h : joinRoom fp s rid uid = (Except.ok (), sFin))
    (hroom : findRoom s rid = some room)
    (hfull : room.players.length + 1 = room.maxPlayers) :
    ∃ r2, findRoom sFin rid = some r2 ∧
      r2.status = RoomStatus.playing ∧ r2.startedAt = true ∧
      r2.players.length = room.maxPlayers ∧
      r2.totalPrizePool = room.amount * (room.maxPlayers : Int) ∧
      r2.platformFee = Int.fdiv (r2.totalPrizePool * fp) 100 ∧
      r2.winnerAmount = r2.totalPrizePool - r2.platformFee ∧
      r2.winnerAmount + r2.platformFee = r2.totalPrizePool := by
  obtain ⟨room0, user, s1, e, room1, room2, hroom0, h1, h2, h3, huser, h4, hok,
    hadd, hstart, hsfin⟩ := joinRoom_ok_spec h
  rw [hroom] at hroom0
  injection hroom0 with hr0
  subst hr0
  obtain ⟨ha1, ha2, ha3, hr1⟩ := addPlayer_ok hadd
  have hlen1 : room1.players.length = room.maxPlayers := by
    rw [hr1]
    simp
    omega
  have hmax1 : room1.maxPlayers = room.maxPlayers := by rw [hr1]
  have hamt1 : room1.amount = room.amount := by rw [hr1]
  have hfull1 : room1.isFull = true := by
    unfold GameRoom.isFull
    rw [hlen1, hmax1]
    simp
  rw [hfull1] at hstart
  simp only [if_pos] at hstart
  obtain ⟨hw1, hw2, hr2⟩ := startGame_ok hstart
  obtain ⟨u2, -, -, -, -, hrooms1, -, -, -⟩ := createWithBalanceUpdate_ok_spec hok
  have hfind1 : findRoom s1 rid = some room := by
    unfold findRoom
    rw [hrooms1]
    exact hroom
  have hid2 : room2.roomId = room.roomId := by
    rw [hr2, hr1]
  refine ⟨room2, ?_, ?_, ?_, ?_, ?_, ?_, ?_, ?_⟩
  · rw [hsfin]
    exact findRoom_saveRoom hfind1 hid2
  · rw [hr2]
  · rw [hr2]
  · rw [hr2]
    simpa using hlen1
  · rw [hr2]
    simp only []
    rw [hamt1, hlen1]
  · rw [hr2]
  · rw [hr2]
  · rw [hr2]
    simp only []
    omega

/-- C5 witness: Bob joins the sample two-seat room with entry fee 100 and
fee percentage 10; the room starts with pool 200, fee 20, winner share
180. -/
theorem joinRoom_full_starts_game_witness :
    ∃ r2, findRoom wS5res "LK123456" = some r2 ∧
      r2.status = RoomStatus.playing ∧ r2.startedAt = true ∧
      r2.players.length = wRoom.maxPlayers ∧
      r2.totalPrizePool = wRoom.amount * (wRoom.maxPlayers : Int) ∧
      r2.platformFee = Int.fdiv (r2.totalPrizePool * 10) 100 ∧
      r2.winnerAmount = r2.totalPrizePool - r2.platformFee ∧
      r2.winnerAmount + r2.platformFee = r2.totalPrizePool :=
  joinRoom_full_starts_game 10 wS5 "LK123456" 2 wS5res wRoom rfl rfl rfl

end Luto
